import Mathlib

/-!
Verification of the tournament-organiser core (`src/components/TournamentWorkspace.tsx`
together with `src/types.ts`): the round-robin fixture generator
(`handleGenerateSchedule`) and the standings/NRR calculator (the `standings`
memo).  All JavaScript numbers are modelled as rationals, `undefined` as
`Option.none`, and the ambient impure inputs of the generator (`Math.random`,
`Date.now`) as an explicit `Entropy` argument.
-/

namespace LimOver

/-- `Math.floor` of JavaScript on a rational: `Rat.floor` is used (rather
than the `Int.floor` notation) so that every definition evaluates by kernel
reduction; `jsFloor_eq_floor` below identifies the two. -/
def jsFloor (q : ℚ) : ℤ := q.floor

/-- `Math.round` of JavaScript: round half toward positive infinity. -/
def jsRound (q : ℚ) : ℤ := jsFloor (q + 1/2)

/-- From the source: convert an overs value written in integer-overs.balls
notation (e.g. `19.4` = 19 overs and 4 balls) to a true numeric value for
division (`toTrueOvers` in `TournamentWorkspace.tsx`). -/
def toTrueOvers (overs : ℚ) : ℚ :=
  let integerPart : ℤ := jsFloor overs
  let balls : ℚ := (overs - integerPart) * 10
  let validBalls : ℤ := min (jsRound balls) 6
  (integerPart : ℚ) + (validBalls : ℚ) / 6

inductive MatchStatus
  | NOT_STARTED
  | IN_PROGRESS
  | COMPLETED
  deriving DecidableEq, Repr

inductive MatchResultType
  | T1_WIN
  | T2_WIN
  | DRAW
  | TIE
  | NO_RESULT
  | ABANDONED
  deriving DecidableEq, Repr

inductive TournamentStatus
  | UPCOMING
  | ONGOING
  | COMPLETED
  deriving DecidableEq, Repr

/-- `Team` from `src/types.ts`, restricted to the fields the core reads
(the stored aggregate stats are never consulted by the schedule generator or
the standings calculator, which recompute everything). -/
structure Team where
  id : String
  name : String
  deriving DecidableEq, Repr

structure Stadium where
  id : String
  name : String
  deriving DecidableEq, Repr

/-- `Match` from `src/types.ts`; optional score fields model the optional
(`?:`) TypeScript fields, with `none` standing for `undefined`. -/
structure Match where
  id : String
  round : Nat
  team1Id : String
  team2Id : String
  venueId : String
  status : MatchStatus
  resultType : Option MatchResultType := none
  t1Runs : Option ℚ := none
  t1Wickets : Option ℚ := none
  t1Overs : Option ℚ := none
  t2Runs : Option ℚ := none
  t2Wickets : Option ℚ := none
  t2Overs : Option ℚ := none
  deriving DecidableEq, Repr

structure PenaltyRecord where
  id : String
  teamId : String
  points : Int
  reason : String
  date : String
  deriving DecidableEq, Repr

structure TournamentConfig where
  /-- The source stores `oversPerMatch` as a string and reads it with
  `parseFloat(tournament.config.oversPerMatch)`; we model the parsed value,
  with `none` standing for a string that does not parse (`NaN`). -/
  oversPerMatch : Option ℚ
  pointsForWin : Int
  pointsForDraw : Int
  pointsForLoss : Int
  deriving DecidableEq, Repr

structure Tournament where
  teams : List Team
  stadiums : List Stadium
  «matches» : List Match
  penalties : List PenaltyRecord
  config : TournamentConfig
  status : Option TournamentStatus := none
  deriving Repr

/-- `parseFloat(tournament.config.oversPerMatch) || 0` from the `standings`
computation: a non-numeric string (`NaN`) falls back to `0` (and a parsed `0`
is itself falsy, also giving `0`). -/
def maxOversOf (cfg : TournamentConfig) : ℚ := cfg.oversPerMatch.getD 0

/-- The mutable per-team accumulators of the `standings` computation
(`mp, mw, ml, mt, nr, pts`, the four NRR totals, and `form`). -/
structure Acc where
  mp : Nat := 0
  mw : Nat := 0
  ml : Nat := 0
  mt : Nat := 0
  nr : Nat := 0
  pts : Int := 0
  totalRunsScored : ℚ := 0
  totalTrueOversFaced : ℚ := 0
  totalRunsConceded : ℚ := 0
  totalTrueOversBowled : ℚ := 0
  form : List String := []
  deriving DecidableEq, Repr

/-- The body of the `matches.forEach` loop inside the `standings` computation.
The definition of `oS` reads `m.t1Overs` in both branches of its conditional,
exactly as the source line
`const oS = isT1 ? (m.t1Overs ?? 0) : (m.t1Overs ?? 0);` does. -/
def accMatch (cfg : TournamentConfig) (teamId : String) (a : Acc) (m : Match) : Acc :=
  let isT1 : Prop := m.team1Id = teamId
  let res := m.resultType
  let maxO := maxOversOf cfg
  let a1 := { a with mp := a.mp + 1 }
  let a2 :=
    if (isT1 ∧ res = some .T1_WIN) ∨ (¬ isT1 ∧ res = some .T2_WIN) then
      { a1 with mw := a1.mw + 1, pts := a1.pts + cfg.pointsForWin, form := a1.form ++ ["W"] }
    else if res = some .TIE then
      { a1 with mt := a1.mt + 1, pts := a1.pts + cfg.pointsForDraw, form := a1.form ++ ["T"] }
    else if res = some .NO_RESULT ∨ res = some .ABANDONED then
      { a1 with nr := a1.nr + 1, pts := a1.pts + cfg.pointsForDraw, form := a1.form ++ ["NR"] }
    else
      { a1 with ml := a1.ml + 1, pts := a1.pts + cfg.pointsForLoss, form := a1.form ++ ["L"] }
  if res ≠ some .ABANDONED ∧ res ≠ some .NO_RESULT ∧ m.t1Runs ≠ none ∧ m.t2Runs ≠ none then
    let rS := if isT1 then m.t1Runs.getD 0 else m.t2Runs.getD 0
    let wS := if isT1 then m.t1Wickets.getD 0 else m.t2Wickets.getD 0
    let oS := if isT1 then m.t1Overs.getD 0 else m.t1Overs.getD 0
    let rC := if isT1 then m.t2Runs.getD 0 else m.t1Runs.getD 0
    let wC := if isT1 then m.t2Wickets.getD 0 else m.t1Wickets.getD 0
    let oC := if isT1 then m.t2Overs.getD 0 else m.t1Overs.getD 0
    { a2 with
      totalRunsScored := a2.totalRunsScored + rS,
      totalRunsConceded := a2.totalRunsConceded + rC,
      totalTrueOversFaced := a2.totalTrueOversFaced + (if wS = 10 then maxO else toTrueOvers oS),
      totalTrueOversBowled := a2.totalTrueOversBowled + (if wC = 10 then maxO else toTrueOvers oC) }
  else a2

/-- The filter selecting, for one team, the completed matches it takes part in. -/
def completedFor (t : Tournament) (teamId : String) : List Match :=
  t.matches.filter (fun m => decide ((m.team1Id = teamId ∨ m.team2Id = teamId) ∧ m.status = .COMPLETED))

/-- Folding the loop body over the team's completed matches. -/
def accumulate (t : Tournament) (teamId : String) : Acc :=
  (completedFor t teamId).foldl (accMatch t.config teamId) {}

/-- `tournament.penalties.filter(p => p.teamId === team.id).reduce((s, p) => s + (p.points || 0), 0)`. -/
def penaltyPointsOf (t : Tournament) (teamId : String) : Int :=
  (t.penalties.filter (fun p => decide (p.teamId = teamId))).foldl (fun s p => s + p.points) 0

/-- A row of the derived standings table (the object literal returned from the
`map` inside the `standings` computation, keeping the derived fields). -/
structure Standing where
  teamId : String
  name : String
  mp : Nat
  mw : Nat
  ml : Nat
  mt : Nat
  nr : Nat
  pts : Int
  nrr : ℚ
  form : List String
  deriving DecidableEq, Repr

/-- One row of the standings table, for one team. -/
def teamRow (t : Tournament) (team : Team) : Standing :=
  let a := accumulate t team.id
  let penPts := penaltyPointsOf t team.id
  let nrr : ℚ :=
    if 0 < a.totalTrueOversFaced ∧ 0 < a.totalTrueOversBowled then
      a.totalRunsScored / a.totalTrueOversFaced - a.totalRunsConceded / a.totalTrueOversBowled
    else 0
  { teamId := team.id, name := team.name,
    mp := a.mp, mw := a.mw, ml := a.ml, mt := a.mt, nr := a.nr,
    pts := max 0 (a.pts - penPts), nrr := nrr,
    form := (a.form.drop (a.form.length - 5)).reverse }

/-- The comparator passed to `data.sort`: points descending, then NRR
descending, then wins descending, then display name ascending
(`localeCompare` modelled as the lexicographic order on strings). -/
def cmpStandings (a b : Standing) : ℚ :=
  if (b.pts : ℚ) - (a.pts : ℚ) ≠ 0 then (b.pts : ℚ) - (a.pts : ℚ)
  else if b.nrr - a.nrr ≠ 0 then b.nrr - a.nrr
  else if (b.mw : ℚ) - (a.mw : ℚ) ≠ 0 then (b.mw : ℚ) - (a.mw : ℚ)
  else if a.name < b.name then -1 else if b.name < a.name then 1 else 0

/-- `a` may be placed no later than `b` by the sort: the comparator is ≤ 0. -/
def standingLE (a b : Standing) : Prop := cmpStandings a b ≤ 0

instance : DecidableRel standingLE :=
  fun _ _ => inferInstanceAs (Decidable (_ ≤ _))

/-- The full standings computation: one row per team, sorted with the
comparator (`Array.prototype.sort` modelled as a stable insertion sort). -/
def computeStandings (t : Tournament) : List Standing :=
  List.insertionSort standingLE (t.teams.map (teamRow t))

/-- The impure ambient inputs of `handleGenerateSchedule`: the stream of
`Math.random()` draws (indexed by how many matches have been emitted when the
draw happens) and the `Date.now()` timestamp used in match ids. -/
structure Entropy where
  rolls : Nat → ℚ
  now : Nat

/-- `tournament.stadiums[Math.floor(Math.random() * tournament.stadiums.length)]`
followed by `venue?.id || 'neutral'`: an out-of-range index yields `undefined`,
hence the neutral sentinel, and an empty stadium id string is falsy, hence
also neutral. -/
def pickVenue (stadiums : List Stadium) (roll : ℚ) : String :=
  let i : ℤ := jsFloor (roll * (stadiums.length : ℚ))
  if i < 0 then "neutral"
  else
    match stadiums.get? i.toNat with
    | none => "neutral"
    | some v => if v.id = "" then "neutral" else v.id

/-- The template literal for match ids. -/
def mkMatchId (r m now : Nat) : String :=
  "M-R" ++ toString (r + 1) ++ "-" ++ toString m ++ "-" ++ toString now

/-- The synthetic placeholder pushed onto the pool when the team count is odd. -/
def byeTeam : Team := { id := "BYE", name := "BYE" }

/-- A default value standing for an out-of-range indexed array read (never
actually reached by the generator loops). -/
def defTeam : Team := { id := "", name := "" }

/-- `teamPool.splice(1, 0, teamPool.pop()!)`: remove the last element and
reinsert it at index 1, fixing the first seat. -/
def rotateOnce {α : Type _} : List α → List α
  | [] => []
  | h :: t =>
    match t.getLast? with
    | none => [h]
    | some x => h :: x :: t.dropLast

/-- The inner loop of `handleGenerateSchedule`: pair seat `m` with seat
`length - 1 - m` over `m < matchesPerRound`, skipping any pairing that
involves the bye placeholder, and appending the created matches. -/
def genRound (stadiums : List Stadium) (e : Entropy) (pool : List Team) (r : Nat)
    (acc : List Match) : List Match :=
  (List.range (pool.length / 2)).foldl
    (fun ms m =>
      let t1 := pool.getD m defTeam
      let t2 := pool.getD (pool.length - 1 - m) defTeam
      if t1.id ≠ "BYE" ∧ t2.id ≠ "BYE" then
        ms ++ [{ id := mkMatchId r m e.now,
                 round := r + 1,
                 team1Id := t1.id,
                 team2Id := t2.id,
                 venueId := pickVenue stadiums (e.rolls ms.length),
                 status := .NOT_STARTED }]
      else ms)
    acc

/-- The outer loop over rounds, rotating the pool after each round. -/
def genRounds (stadiums : List Stadium) (e : Entropy) :
    List Team → Nat → Nat → List Match → List Match
  | _, _, 0, acc => acc
  | pool, r, k + 1, acc =>
    genRounds stadiums e (rotateOnce pool) (r + 1) k (genRound stadiums e pool r acc)

/-- The match list built by `handleGenerateSchedule` once the team-count guard
has passed: pad the pool with the bye when odd, then run `numRounds =
pool.length - 1` rounds. -/
def generateMatches (teams : List Team) (stadiums : List Stadium) (e : Entropy) : List Match :=
  let teamPool := if teams.length % 2 ≠ 0 then teams ++ [byeTeam] else teams
  genRounds stadiums e teamPool 0 (teamPool.length - 1) []

inductive ScheduleError
  | insufficientTeams
  deriving DecidableEq, Repr

/-- `generateSchedule` as the spec names it: the guard
`if (teams.length < 2) return alert(...)` surfaces as the only error. -/
def generateSchedule (teams : List Team) (stadiums : List Stadium) (e : Entropy) :
    Except ScheduleError (List Match) :=
  if teams.length < 2 then .error .insufficientTeams
  else .ok (generateMatches teams stadiums e)

/-- `handleGenerateSchedule` at the tournament level: on failure the handler
returns before `onUpdateTournament`, leaving the tournament untouched; on
success it replaces the match list wholesale and resets the status. -/
def handleGenerateSchedule (t : Tournament) (e : Entropy) : Tournament :=
  match generateSchedule t.teams t.stadiums e with
  | .error _ => t
  | .ok ms => { t with «matches» := ms, status := some .UPCOMING }

/-- The schedule-relevant projection of a match: round and the two team ids
(everything except the entropy-dependent id and venue and the constant
status). -/
def matchProj (m : Match) : Nat × String × String := (m.round, m.team1Id, m.team2Id)

/-- The entry produced at seat `m` of a round: seat `m` is paired with seat
`pool.length - 1 - m`. -/
def entryAt (pool : List String) (r m : Nat) : Nat × String × String :=
  (r + 1, pool.getD m "", pool.getD (pool.length - 1 - m) "")

/-- The pairing stream of one round with no bye filtering. -/
def roundPairsAll (pool : List String) (r : Nat) : List (Nat × String × String) :=
  (List.range (pool.length / 2)).map (entryAt pool r)

/-- The unordered pair of team ids of one schedule entry. -/
def pairF (p : Nat × String × String) : Finset String := {p.2.1, p.2.2}

/-- The unordered pair of team ids of one match. -/
def mpairF (m : Match) : Finset String := {m.team1Id, m.team2Id}

/-- The guard of the inner loop: neither seat holds the bye placeholder. -/
def byeOK : Nat × String × String → Bool :=
  fun p => decide (p.2.1 ≠ "BYE" ∧ p.2.2 ≠ "BYE")

/-- The pairing stream of one round, on team ids alone, bye pairings skipped. -/
def roundPairs (pool : List String) (r : Nat) : List (Nat × String × String) :=
  (roundPairsAll pool r).filter byeOK

/-- The whole pairing stream, on team ids alone. -/
def genPairs : List String → Nat → Nat → List (Nat × String × String)
  | _, _, 0 => []
  | pool, r, k + 1 => roundPairs pool r ++ genPairs (rotateOnce pool) (r + 1) k

/-- The whole pairing stream with no bye filtering. -/
def genPairsAll : List String → Nat → Nat → List (Nat × String × String)
  | _, _, 0 => []
  | pool, r, k + 1 => roundPairsAll pool r ++ genPairsAll (rotateOnce pool) (r + 1) k

/-- The number of schedule entries pairing the two given teams, in either
order. -/
def pairCount (ms : List Match) (a b : String) : Nat :=
  ms.countP (fun m =>
    decide ((m.team1Id = a ∧ m.team2Id = b) ∨ (m.team1Id = b ∧ m.team2Id = a)))

/-! Concrete fixtures used to evaluate the computations on explicit inputs. -/

def cfgStd : TournamentConfig :=
  { oversPerMatch := some 20, pointsForWin := 2, pointsForDraw := 1, pointsForLoss := 0 }

/-- A scoring configuration awarding one point whatever the outcome. -/
def cfgOnes : TournamentConfig :=
  { oversPerMatch := some 20, pointsForWin := 1, pointsForDraw := 1, pointsForLoss := 1 }

def teamA : Team := { id := "A", name := "Alpha" }

def teamB : Team := { id := "B", name := "Beta" }

def teamG : Team := { id := "C", name := "Gamma" }

def teamD : Team := { id := "D", name := "Delta" }

def teamE : Team := { id := "E", name := "Epsilon" }

def teamZ : Team := { id := "Z", name := "Zeta" }

/-- A completed match with full scorecards: Alpha 100/2 in 20 overs beats
Beta 50/3 in 10 overs. -/
def mSwap : Match :=
  { id := "m1", round := 1, team1Id := "A", team2Id := "B", venueId := "v",
    status := .COMPLETED, resultType := some .T1_WIN,
    t1Runs := some 100, t1Wickets := some 2, t1Overs := some 20,
    t2Runs := some 50, t2Wickets := some 3, t2Overs := some 10 }

def tSwap : Tournament :=
  { teams := [teamA, teamB], stadiums := [], «matches» := [mSwap],
    penalties := [], config := cfgStd }

/-- Zeta beats Alpha with no scorecard recorded. -/
def mUpset : Match :=
  { id := "m1", round := 1, team1Id := "Z", team2Id := "A", venueId := "v",
    status := .COMPLETED, resultType := some .T1_WIN }

/-- Under `cfgOnes` both teams end on one point with zero NRR, but with
different win counts. -/
def tTieBreak : Tournament :=
  { teams := [teamA, teamZ], stadiums := [], «matches» := [mUpset],
    penalties := [], config := cfgOnes }

def mWin1 : Match :=
  { id := "w1", round := 1, team1Id := "A", team2Id := "B", venueId := "v",
    status := .COMPLETED, resultType := some .T1_WIN }

def mWin2 : Match :=
  { id := "w2", round := 2, team1Id := "B", team2Id := "A", venueId := "v",
    status := .COMPLETED, resultType := some .T2_WIN }

/-- Alpha wins twice (4 points at `pointsForWin = 2`) and carries a 5-point
penalty. -/
def tFloor : Tournament :=
  { teams := [teamA, teamB], stadiums := [], «matches» := [mWin1, mWin2],
    penalties := [{ id := "p1", teamId := "A", points := 5,
                    reason := "slow over rate", date := "2026-01-01" }],
    config := cfgStd }

/-- A completed match whose wickets and overs fields are all missing while
both run totals are present. -/
def mMissing : Match :=
  { id := "m1", round := 1, team1Id := "A", team2Id := "B", venueId := "v",
    status := .COMPLETED, resultType := some .T1_WIN,
    t1Runs := some 100, t2Runs := some 50 }

def tMissing : Tournament :=
  { teams := [teamA, teamB], stadiums := [], «matches» := [mMissing],
    penalties := [], config := cfgStd }

/-- A completed match missing the first side's run total. -/
def mNoRuns : Match :=
  { id := "m1", round := 1, team1Id := "A", team2Id := "B", venueId := "v",
    status := .COMPLETED, resultType := some .T1_WIN,
    t2Runs := some 50, t2Wickets := some 3, t2Overs := some 10 }

/-- A completed match carrying the `DRAW` result type. -/
def mDraw : Match :=
  { id := "d1", round := 1, team1Id := "A", team2Id := "B", venueId := "v",
    status := .COMPLETED, resultType := some .DRAW }

def tDraw : Tournament :=
  { teams := [teamA, teamB], stadiums := [], «matches» := [mDraw],
    penalties := [], config := cfgStd }

/-- A completed match in which both sides are bowled out for all ten
wickets inside their recorded overs. -/
def mAllOut : Match :=
  { id := "m1", round := 1, team1Id := "A", team2Id := "B", venueId := "v",
    status := .COMPLETED, resultType := some .T1_WIN,
    t1Runs := some 120, t1Wickets := some 10, t1Overs := some (35/2),
    t2Runs := some 90, t2Wickets := some 10, t2Overs := some (61/5) }

/-- A deterministic entropy source: every random draw is `0`. -/
def e0 : Entropy := { rolls := fun _ => 0, now := 42 }

/-- A second entropy source: every random draw is `1/2`. -/
def eHalf : Entropy := { rolls := fun _ => 1/2, now := 42 }

def teams2 : List Team := [teamA, teamB]

def teams4 : List Team := [teamA, teamB, teamG, teamD]

def teams5 : List Team := [teamA, teamB, teamG, teamD, teamE]

def stads2 : List Stadium := [{ id := "s1", name := "Fort" }, { id := "s2", name := "Oval" }]

/-- A tournament with a single team and a pre-existing match list. -/
def tOne : Tournament :=
  { teams := [teamA], stadiums := stads2, «matches» := [mDraw],
    penalties := [], config := cfgStd }

def tTwo : Tournament :=
  { teams := teams2, stadiums := [], «matches» := [], penalties := [], config := cfgStd }

def tFive : Tournament :=
  { teams := teams5, stadiums := [], «matches» := [], penalties := [], config := cfgStd }

/-! Lemmas about the per-match accumulation. -/

theorem jsFloor_eq_floor (q : ℚ) : jsFloor q = ⌊q⌋ := by
  rw [jsFloor, Rat.floor_def', Rat.floor_def]

theorem accMatch_totals_of_guard (cfg : TournamentConfig) (teamId : String) (a : Acc) (m : Match)
    (hA : m.resultType ≠ some .ABANDONED) (hN : m.resultType ≠ some .NO_RESULT)
    (h1 : m.t1Runs ≠ none) (h2 : m.t2Runs ≠ none) :
    (accMatch cfg teamId a m).totalRunsScored
      = a.totalRunsScored + (if m.team1Id = teamId then m.t1Runs.getD 0 else m.t2Runs.getD 0) ∧
    (accMatch cfg teamId a m).totalRunsConceded
      = a.totalRunsConceded + (if m.team1Id = teamId then m.t2Runs.getD 0 else m.t1Runs.getD 0) ∧
    (accMatch cfg teamId a m).totalTrueOversFaced
      = a.totalTrueOversFaced
        + (if (if m.team1Id = teamId then m.t1Wickets.getD 0 else m.t2Wickets.getD 0) = 10
           then maxOversOf cfg
           else toTrueOvers (if m.team1Id = teamId then m.t1Overs.getD 0 else m.t1Overs.getD 0)) ∧
    (accMatch cfg teamId a m).totalTrueOversBowled
      = a.totalTrueOversBowled
        + (if (if m.team1Id = teamId then m.t2Wickets.getD 0 else m.t1Wickets.getD 0) = 10
           then maxOversOf cfg
           else toTrueOvers (if m.team1Id = teamId then m.t2Overs.getD 0 else m.t1Overs.getD 0)) := by
  simp only [accMatch]
  rw [if_pos ⟨hA, hN, h1, h2⟩]
  split_ifs <;> simp_all

theorem accMatch_totals_of_noGuard (cfg : TournamentConfig) (teamId : String) (a : Acc) (m : Match)
    (h : ¬ (m.resultType ≠ some .ABANDONED ∧ m.resultType ≠ some .NO_RESULT ∧
            m.t1Runs ≠ none ∧ m.t2Runs ≠ none)) :
    (accMatch cfg teamId a m).totalRunsScored = a.totalRunsScored ∧
    (accMatch cfg teamId a m).totalRunsConceded = a.totalRunsConceded ∧
    (accMatch cfg teamId a m).totalTrueOversFaced = a.totalTrueOversFaced ∧
    (accMatch cfg teamId a m).totalTrueOversBowled = a.totalTrueOversBowled := by
  simp only [accMatch]
  rw [if_neg h]
  split_ifs <;> simp

theorem accMatch_counters (cfg : TournamentConfig) (teamId : String) (a : Acc) (m : Match) :
    (accMatch cfg teamId a m).mp = a.mp + 1 ∧
    (accMatch cfg teamId a m).mw + (accMatch cfg teamId a m).ml
      + (accMatch cfg teamId a m).mt + (accMatch cfg teamId a m).nr
      = a.mw + a.ml + a.mt + a.nr + 1 := by
  simp only [accMatch]
  split_ifs <;> simp <;> omega

/-- The win/tie/no-result/loss branch of the loop body updates the matching
counter, the points and the form entry, regardless of the score fields. -/
theorem accMatch_outcome_cases (cfg : TournamentConfig) (teamId : String) (a : Acc)
    (m : Match) :
    ((m.team1Id = teamId ∧ m.resultType = some .T1_WIN) ∨
        (¬ m.team1Id = teamId ∧ m.resultType = some .T2_WIN) →
      (accMatch cfg teamId a m).mw = a.mw + 1 ∧
      (accMatch cfg teamId a m).pts = a.pts + cfg.pointsForWin ∧
      (accMatch cfg teamId a m).form = a.form ++ ["W"]) ∧
    (m.resultType = some .TIE →
      (accMatch cfg teamId a m).mt = a.mt + 1 ∧
      (accMatch cfg teamId a m).pts = a.pts + cfg.pointsForDraw ∧
      (accMatch cfg teamId a m).form = a.form ++ ["T"]) ∧
    (m.resultType = some .NO_RESULT ∨ m.resultType = some .ABANDONED →
      (accMatch cfg teamId a m).nr = a.nr + 1 ∧
      (accMatch cfg teamId a m).pts = a.pts + cfg.pointsForDraw ∧
      (accMatch cfg teamId a m).form = a.form ++ ["NR"]) ∧
    (¬ ((m.team1Id = teamId ∧ m.resultType = some .T1_WIN) ∨
        (¬ m.team1Id = teamId ∧ m.resultType = some .T2_WIN)) →
      m.resultType ≠ some .TIE →
      m.resultType ≠ some .NO_RESULT →
      m.resultType ≠ some .ABANDONED →
      (accMatch cfg teamId a m).ml = a.ml + 1 ∧
      (accMatch cfg teamId a m).pts = a.pts + cfg.pointsForLoss ∧
      (accMatch cfg teamId a m).form = a.form ++ ["L"]) := by
  refine ⟨?_, ?_, ?_, ?_⟩
  · intro hw
    simp only [accMatch]
    rw [if_pos hw]
    split_ifs <;> simp
  · intro ht
    simp only [accMatch, ht]
    split_ifs <;> simp_all
  · intro hnr
    rcases hnr with h | h <;> simp only [accMatch, h] <;> split_ifs <;> simp_all
  · intro h1 h2 h3 h4
    simp only [accMatch]
    rw [if_neg h1, if_neg h2, if_neg (not_or.mpr ⟨h3, h4⟩)]
    split_ifs <;> simp

/-- **C5.** Whenever a side's recorded wickets equal 10 (all out) and the NRR
guard passes (outcome is neither `NO_RESULT` nor `ABANDONED`, both run totals
present), the true overs credited for that innings in the NRR accumulation are
the tournament's fixed overs-per-match limit, not the true-overs conversion of
the recorded overs; the substitution applies independently to the overs-faced
and the overs-bowled accumulator, on whichever side the team occupies. -/
theorem c5_all_out_full_allotment
    (cfg : TournamentConfig) (teamId : String) (a : Acc) (m : Match)
    (hA : m.resultType ≠ some .ABANDONED) (hN : m.resultType ≠ some .NO_RESULT)
    (h1 : m.t1Runs ≠ none) (h2 : m.t2Runs ≠ none) :
    ((m.team1Id = teamId → m.t1Wickets.getD 0 = 10 →
        (accMatch cfg teamId a m).totalTrueOversFaced
          = a.totalTrueOversFaced + maxOversOf cfg) ∧
     (m.team1Id ≠ teamId → m.t2Wickets.getD 0 = 10 →
        (accMatch cfg teamId a m).totalTrueOversFaced
          = a.totalTrueOversFaced + maxOversOf cfg)) ∧
    ((m.team1Id = teamId → m.t2Wickets.getD 0 = 10 →
        (accMatch cfg teamId a m).totalTrueOversBowled
          = a.totalTrueOversBowled + maxOversOf cfg) ∧
     (m.team1Id ≠ teamId → m.t1Wickets.getD 0 = 10 →
        (accMatch cfg teamId a m).totalTrueOversBowled
          = a.totalTrueOversBowled + maxOversOf cfg)) := by
  obtain ⟨-, -, hf, hb⟩ := accMatch_totals_of_guard cfg teamId a m hA hN h1 h2
  refine ⟨⟨fun h hw => ?_, fun h hw => ?_⟩, fun h hw => ?_, fun h hw => ?_⟩ <;>
    simp [hf, hb, h, hw]

/-- Witness for C5: in `mAllOut` both sides fall for ten wickets, so both of
Alpha's accumulators are credited with the 20-over allotment although the
recorded overs were 17.3 and 12.1. -/
theorem c5_all_out_full_allotment_witness :
    (accMatch cfgStd "A" {} mAllOut).totalTrueOversFaced = 0 + maxOversOf cfgStd ∧
    (accMatch cfgStd "A" {} mAllOut).totalTrueOversBowled = 0 + maxOversOf cfgStd :=
  ⟨((c5_all_out_full_allotment cfgStd "A" {} mAllOut (by decide) (by decide) (by decide)
      (by decide)).1.1) rfl (by decide),
   ((c5_all_out_full_allotment cfgStd "A" {} mAllOut (by decide) (by decide) (by decide)
      (by decide)).2.1) rfl (by decide)⟩

/-- **C10.** A completed match carrying result type `DRAW` is counted as a
loss by the accumulation, for whichever team the row is computed: the loss
counter increments, `pointsForLoss` accrues, and `L` is appended to the form
sequence, while the win, tie and no-result counters are untouched. -/
theorem c10_draw_counts_as_loss
    (cfg : TournamentConfig) (teamId : String) (a : Acc) (m : Match)
    (hres : m.resultType = some .DRAW) :
    (accMatch cfg teamId a m).ml = a.ml + 1 ∧
    (accMatch cfg teamId a m).pts = a.pts + cfg.pointsForLoss ∧
    (accMatch cfg teamId a m).form = a.form ++ ["L"] ∧
    (accMatch cfg teamId a m).mw = a.mw ∧
    (accMatch cfg teamId a m).mt = a.mt ∧
    (accMatch cfg teamId a m).nr = a.nr := by
  simp only [accMatch, hres]
  split_ifs <;> simp_all

/-- Witness for C10: in the concrete drawn match `mDraw` both Alpha and Beta
are handed a loss, `pointsForLoss` and an `L` in the form string. -/
theorem c10_draw_counts_as_loss_witness :
    ((accMatch cfgStd "A" {} mDraw).ml = 0 + 1 ∧
      (accMatch cfgStd "A" {} mDraw).pts = 0 + cfgStd.pointsForLoss ∧
      (accMatch cfgStd "A" {} mDraw).form = [] ++ ["L"]) ∧
    ((accMatch cfgStd "B" {} mDraw).ml = 0 + 1 ∧
      (accMatch cfgStd "B" {} mDraw).pts = 0 + cfgStd.pointsForLoss ∧
      (accMatch cfgStd "B" {} mDraw).form = [] ++ ["L"]) := by
  have hA := c10_draw_counts_as_loss cfgStd "A" {} mDraw (by decide)
  have hB := c10_draw_counts_as_loss cfgStd "B" {} mDraw (by decide)
  exact ⟨⟨hA.1, hA.2.1, hA.2.2.1⟩, ⟨hB.1, hB.2.1, hB.2.2.1⟩⟩

/-- **C4.** `toTrueOvers` returns the integer part plus
`min(round(10 · fractional part), 6) / 6` — the fractional digit read as a
ball count, rounded to nearest, capped at six balls, divided by six; in
particular 19.4 maps to 19.667 within 0.001, 20.0 maps to 20.0 and 0.6 maps
to 1.0. -/
theorem c4_true_overs_conversion :
    (∀ q : ℚ, toTrueOvers q
        = (⌊q⌋ : ℚ) + ((min (jsRound (10 * (q - ⌊q⌋))) 6 : ℤ) : ℚ) / 6) ∧
    |toTrueOvers (194/10) - 19667/1000| ≤ 1/1000 ∧
    toTrueOvers (200/10) = 20 ∧
    toTrueOvers (6/10) = 1 := by
  refine ⟨fun q => ?_, by norm_num [toTrueOvers, jsRound, jsFloor_eq_floor, abs_le],
    by norm_num [toTrueOvers, jsRound, jsFloor_eq_floor],
    by norm_num [toTrueOvers, jsRound, jsFloor_eq_floor]⟩
  simp [toTrueOvers, jsFloor_eq_floor, mul_comm]

/-- **C6.** A team's reported points are the points accumulated from its
completed matches minus the total of its penalty records, floored at zero, so
reported points are never negative; concretely, two wins at `pointsForWin = 2`
against a 5-point penalty report 0 points, not -1. -/
theorem c6_penalty_floor :
    (∀ (t : Tournament) (team : Team),
        (teamRow t team).pts
          = max 0 ((accumulate t team.id).pts - penaltyPointsOf t team.id) ∧
        0 ≤ (teamRow t team).pts) ∧
    (accumulate tFloor "A").pts = 4 ∧
    penaltyPointsOf tFloor "A" = 5 ∧
    (teamRow tFloor teamA).pts = 0 := by
  refine ⟨fun t team => ⟨rfl, le_max_left _ _⟩, by decide, by decide, by decide⟩

/-- **C8 counterexample.** `mMissing` is a completed match missing required
score fields (every wickets and overs field is undefined), yet it does not
contribute zero to every NRR accumulator: Alpha's runs-scored total becomes
100 (the missing overs are read as 0, i.e. `toTrueOvers 0` overs faced). -/
theorem c8_missing_fields_counterexample :
    mMissing.t1Wickets = none ∧ mMissing.t1Overs = none ∧
    mMissing.t2Wickets = none ∧ mMissing.t2Overs = none ∧
    mMissing.status = .COMPLETED ∧
    (accumulate tMissing "A").totalRunsScored = 100 ∧
    (accumulate tMissing "A").totalRunsScored ≠ 0 ∧
    (accumulate tMissing "A").totalTrueOversFaced = 0 := by
  refine ⟨rfl, rfl, rfl, rfl, rfl, ?_, ?_, ?_⟩ <;>
    norm_num +decide [accumulate, completedFor, accMatch, tMissing, mMissing, cfgStd, maxOversOf,
      toTrueOvers, jsRound, jsFloor_eq_floor]

/-- **C8 (amended).** A completed match missing a side's *run total* is
treated defensively: all four NRR accumulators are unchanged, while the match
still counts toward the played counter, exactly one of the
win/loss/tie/no-result counters, and the points, all determined by the
result outcome field — a win adds `pointsForWin`, a tie or a no-result or an
abandonment adds `pointsForDraw`, anything else adds `pointsForLoss` — and
the computation is total, hence never throws. Missing wickets or overs
fields alone do not suppress the NRR contribution: they default to zero. -/
theorem c8_missing_runs_zero_nrr
    (cfg : TournamentConfig) (teamId : String) (a : Acc) (m : Match)
    (h : m.t1Runs = none ∨ m.t2Runs = none) :
    (accMatch cfg teamId a m).totalRunsScored = a.totalRunsScored ∧
    (accMatch cfg teamId a m).totalRunsConceded = a.totalRunsConceded ∧
    (accMatch cfg teamId a m).totalTrueOversFaced = a.totalTrueOversFaced ∧
    (accMatch cfg teamId a m).totalTrueOversBowled = a.totalTrueOversBowled ∧
    (accMatch cfg teamId a m).mp = a.mp + 1 ∧
    (accMatch cfg teamId a m).mw + (accMatch cfg teamId a m).ml
      + (accMatch cfg teamId a m).mt + (accMatch cfg teamId a m).nr
      = a.mw + a.ml + a.mt + a.nr + 1 ∧
    ((m.team1Id = teamId ∧ m.resultType = some .T1_WIN) ∨
        (¬ m.team1Id = teamId ∧ m.resultType = some .T2_WIN) →
      (accMatch cfg teamId a m).mw = a.mw + 1 ∧
      (accMatch cfg teamId a m).pts = a.pts + cfg.pointsForWin ∧
      (accMatch cfg teamId a m).form = a.form ++ ["W"]) ∧
    (m.resultType = some .TIE →
      (accMatch cfg teamId a m).mt = a.mt + 1 ∧
      (accMatch cfg teamId a m).pts = a.pts + cfg.pointsForDraw ∧
      (accMatch cfg teamId a m).form = a.form ++ ["T"]) ∧
    (m.resultType = some .NO_RESULT ∨ m.resultType = some .ABANDONED →
      (accMatch cfg teamId a m).nr = a.nr + 1 ∧
      (accMatch cfg teamId a m).pts = a.pts + cfg.pointsForDraw ∧
      (accMatch cfg teamId a m).form = a.form ++ ["NR"]) ∧
    (¬ ((m.team1Id = teamId ∧ m.resultType = some .T1_WIN) ∨
        (¬ m.team1Id = teamId ∧ m.resultType = some .T2_WIN)) →
      m.resultType ≠ some .TIE →
      m.resultType ≠ some .NO_RESULT →
      m.resultType ≠ some .ABANDONED →
      (accMatch cfg teamId a m).ml = a.ml + 1 ∧
      (accMatch cfg teamId a m).pts = a.pts + cfg.pointsForLoss ∧
      (accMatch cfg teamId a m).form = a.form ++ ["L"]) := by
  have hng : ¬ (m.resultType ≠ some .ABANDONED ∧ m.resultType ≠ some .NO_RESULT ∧
      m.t1Runs ≠ none ∧ m.t2Runs ≠ none) := by
    rcases h with h | h <;> simp [h]
  obtain ⟨h1, h2, h3, h4⟩ := accMatch_totals_of_noGuard cfg teamId a m hng
  obtain ⟨h5, h6⟩ := accMatch_counters cfg teamId a m
  obtain ⟨h7, h8, h9, h10⟩ := accMatch_outcome_cases cfg teamId a m
  exact ⟨h1, h2, h3, h4, h5, h6, h7, h8, h9, h10⟩

/-- Witness for the amended C8: the completed match `mNoRuns` (first side's
run total missing, outcome `T1_WIN` with Alpha on side 1) leaves every NRR
accumulator of Alpha at zero while the match is still counted as a win and
awards `pointsForWin`. -/
theorem c8_missing_runs_zero_nrr_witness :
    (accMatch cfgStd "A" {} mNoRuns).totalRunsScored = ({} : Acc).totalRunsScored ∧
    (accMatch cfgStd "A" {} mNoRuns).mp = ({} : Acc).mp + 1 ∧
    (accMatch cfgStd "A" {} mNoRuns).mw = ({} : Acc).mw + 1 ∧
    (accMatch cfgStd "A" {} mNoRuns).pts = ({} : Acc).pts + cfgStd.pointsForWin := by
  have h := c8_missing_runs_zero_nrr cfgStd "A" {} mNoRuns (Or.inl (by decide))
  have hw := h.2.2.2.2.2.2.1 (Or.inl ⟨by decide, by decide⟩)
  exact ⟨h.1, h.2.2.2.2.1, hw.1, hw.2.1⟩

/-- **C2.** (evaluation of the code at the failing input) In `tSwap`, Beta is
the second side: its recorded overs are 10 (`t2Overs`), yet the accumulation
credits its overs-faced ledger with `toTrueOvers` of the *first* side's 20
overs, so Beta's NRR computes to −5/2 although runs-scored over its own true
overs faced minus runs-conceded over true overs bowled is 0. -/
theorem c2_overs_faced_from_wrong_side :
    mSwap.t2Overs = some 10 ∧ mSwap.t1Overs = some 20 ∧
    (accumulate tSwap "B").totalTrueOversFaced = toTrueOvers 20 ∧
    (accumulate tSwap "B").totalTrueOversFaced ≠ toTrueOvers 10 ∧
    (teamRow tSwap teamB).nrr = -(5/2) ∧
    (50 : ℚ) / toTrueOvers 10 - (100 : ℚ) / toTrueOvers 20 = 0 := by
  refine ⟨rfl, rfl, ?_, ?_, ?_, ?_⟩ <;>
    norm_num +decide [teamRow, accumulate, penaltyPointsOf, completedFor, accMatch, tSwap, mSwap,
      teamB, cfgStd, maxOversOf, toTrueOvers, jsRound, jsFloor_eq_floor]

/-! The sort comparator as a lexicographic order. -/

theorem standingLE_iff (a b : Standing) :
    standingLE a b ↔
      b.pts < a.pts ∨ (b.pts = a.pts ∧ (b.nrr < a.nrr ∨ (b.nrr = a.nrr ∧
        (b.mw < a.mw ∨ (b.mw = a.mw ∧ a.name ≤ b.name))))) := by
  unfold standingLE cmpStandings
  split_ifs with h1 h2 h3 h4 h5
  · have hne : b.pts ≠ a.pts := fun h => h1 (by rw [h]; ring)
    rw [sub_nonpos, Int.cast_le]
    constructor
    · intro h
      exact Or.inl (lt_of_le_of_ne h hne)
    · rintro (h | ⟨h, -⟩)
      · exact le_of_lt h
      · exact absurd h hne
  · have hp : b.pts = a.pts := by exact_mod_cast sub_eq_zero.mp (not_ne_iff.mp h1)
    have hne : b.nrr ≠ a.nrr := fun h => h2 (by rw [h]; ring)
    rw [sub_nonpos]
    constructor
    · intro h
      exact Or.inr ⟨hp, Or.inl (lt_of_le_of_ne h hne)⟩
    · rintro (h | ⟨-, h | ⟨h, -⟩⟩)
      · exact absurd hp (ne_of_lt h)
      · exact le_of_lt h
      · exact absurd h hne
  · have hp : b.pts = a.pts := by exact_mod_cast sub_eq_zero.mp (not_ne_iff.mp h1)
    have hn : b.nrr = a.nrr := sub_eq_zero.mp (not_ne_iff.mp h2)
    have hne : b.mw ≠ a.mw := fun h => h3 (by rw [h]; ring)
    rw [sub_nonpos, Nat.cast_le]
    constructor
    · intro h
      exact Or.inr ⟨hp, Or.inr ⟨hn, Or.inl (lt_of_le_of_ne h hne)⟩⟩
    · rintro (h | ⟨-, h | ⟨-, h | ⟨h, -⟩⟩⟩)
      · exact absurd hp (ne_of_lt h)
      · exact absurd hn (ne_of_lt h)
      · exact le_of_lt h
      · exact absurd h hne
  · have hp : b.pts = a.pts := by exact_mod_cast sub_eq_zero.mp (not_ne_iff.mp h1)
    have hn : b.nrr = a.nrr := sub_eq_zero.mp (not_ne_iff.mp h2)
    have hw : b.mw = a.mw := by exact_mod_cast sub_eq_zero.mp (not_ne_iff.mp h3)
    exact iff_of_true (by norm_num)
      (Or.inr ⟨hp, Or.inr ⟨hn, Or.inr ⟨hw, le_of_lt h4⟩⟩⟩)
  · have hp : b.pts = a.pts := by exact_mod_cast sub_eq_zero.mp (not_ne_iff.mp h1)
    have hn : b.nrr = a.nrr := sub_eq_zero.mp (not_ne_iff.mp h2)
    have hw : b.mw = a.mw := by exact_mod_cast sub_eq_zero.mp (not_ne_iff.mp h3)
    refine iff_of_false (by norm_num) ?_
    rintro (h | ⟨-, h | ⟨-, h | ⟨-, h⟩⟩⟩)
    · exact absurd hp (ne_of_lt h)
    · exact absurd hn (ne_of_lt h)
    · exact absurd hw (ne_of_lt h)
    · exact absurd h (not_le.mpr h5)
  · have hp : b.pts = a.pts := by exact_mod_cast sub_eq_zero.mp (not_ne_iff.mp h1)
    have hn : b.nrr = a.nrr := sub_eq_zero.mp (not_ne_iff.mp h2)
    have hw : b.mw = a.mw := by exact_mod_cast sub_eq_zero.mp (not_ne_iff.mp h3)
    have hname : a.name = b.name := le_antisymm (le_of_not_lt h5) (le_of_not_lt h4)
    exact iff_of_true le_rfl
      (Or.inr ⟨hp, Or.inr ⟨hn, Or.inr ⟨hw, le_of_eq hname⟩⟩⟩)

theorem cmpStandings_eq_zero_iff (a b : Standing) :
    cmpStandings a b = 0 ↔ a.pts = b.pts ∧ a.nrr = b.nrr ∧ a.mw = b.mw ∧ a.name = b.name := by
  unfold cmpStandings
  split_ifs with h1 h2 h3 h4 h5
  · exact iff_of_false h1 (fun h => h1 (by rw [h.1]; ring))
  · exact iff_of_false h2 (fun h => h2 (by rw [h.2.1]; ring))
  · exact iff_of_false h3 (fun h => h3 (by rw [h.2.2.1]; ring))
  · refine iff_of_false (by norm_num) ?_
    rintro ⟨-, -, -, h⟩
    exact absurd h (ne_of_lt h4)
  · refine iff_of_false (by norm_num) ?_
    rintro ⟨-, -, -, h⟩
    exact absurd h.symm (ne_of_lt h5)
  · have hp : a.pts = b.pts := by exact_mod_cast (sub_eq_zero.mp (not_ne_iff.mp h1)).symm
    have hn : a.nrr = b.nrr := (sub_eq_zero.mp (not_ne_iff.mp h2)).symm
    have hw : a.mw = b.mw := by exact_mod_cast (sub_eq_zero.mp (not_ne_iff.mp h3)).symm
    have hname : a.name = b.name := le_antisymm (le_of_not_lt h5) (le_of_not_lt h4)
    exact iff_of_true rfl ⟨hp, hn, hw, hname⟩

theorem standingLE_total (a b : Standing) : standingLE a b ∨ standingLE b a := by
  rw [standingLE_iff, standingLE_iff]
  rcases lt_trichotomy b.pts a.pts with h | h | h
  · exact Or.inl (Or.inl h)
  · rcases lt_trichotomy b.nrr a.nrr with h2 | h2 | h2
    · exact Or.inl (Or.inr ⟨h, Or.inl h2⟩)
    · rcases lt_trichotomy b.mw a.mw with h3 | h3 | h3
      · exact Or.inl (Or.inr ⟨h, Or.inr ⟨h2, Or.inl h3⟩⟩)
      · rcases le_total a.name b.name with h4 | h4
        · exact Or.inl (Or.inr ⟨h, Or.inr ⟨h2, Or.inr ⟨h3, h4⟩⟩⟩)
        · exact Or.inr (Or.inr ⟨h.symm, Or.inr ⟨h2.symm, Or.inr ⟨h3.symm, h4⟩⟩⟩)
      · exact Or.inr (Or.inr ⟨h.symm, Or.inr ⟨h2.symm, Or.inl h3⟩⟩)
    · exact Or.inr (Or.inr ⟨h.symm, Or.inl h2⟩)
  · exact Or.inr (Or.inl h)

theorem standingLE_trans (a b c : Standing)
    (hab : standingLE a b) (hbc : standingLE b c) : standingLE a c := by
  rw [standingLE_iff] at hab hbc ⊢
  rcases hab with h1 | ⟨e1, hab⟩
  · rcases hbc with h2 | ⟨e2, -⟩
    · exact Or.inl (lt_trans h2 h1)
    · exact Or.inl (by rw [e2]; exact h1)
  · rcases hbc with h2 | ⟨e2, hbc⟩
    · exact Or.inl (by rw [← e1]; exact h2)
    · refine Or.inr ⟨e2.trans e1, ?_⟩
      rcases hab with h1 | ⟨f1, hab⟩
      · rcases hbc with h2 | ⟨f2, -⟩
        · exact Or.inl (lt_trans h2 h1)
        · exact Or.inl (by rw [f2]; exact h1)
      · rcases hbc with h2 | ⟨f2, hbc⟩
        · exact Or.inl (by rw [← f1]; exact h2)
        · refine Or.inr ⟨f2.trans f1, ?_⟩
          rcases hab with h1 | ⟨g1, hab⟩
          · rcases hbc with h2 | ⟨g2, -⟩
            · exact Or.inl (lt_trans h2 h1)
            · exact Or.inl (by rw [g2]; exact h1)
          · rcases hbc with h2 | ⟨g2, hbc⟩
            · exact Or.inl (by rw [← g1]; exact h2)
            · exact Or.inr ⟨g2.trans g1, le_trans hab hbc⟩

/-- **C3 counterexample.** In `tTieBreak` the two teams end with identical
points (one each) and identical NRR (zero each), yet the standings list Zeta
before Alpha — by the third sort key, win count — so the output is *not* in
ascending name order, refuting the claim that identical points and identical
NRR alone are ordered by ascending name. -/
theorem c3_identical_pts_nrr_counterexample :
    ((computeStandings tTieBreak).map (fun s => s.pts)) = [1, 1] ∧
    ((computeStandings tTieBreak).map (fun s => s.nrr)) = [0, 0] ∧
    ((computeStandings tTieBreak).map (fun s => s.mw)) = [1, 0] ∧
    ((computeStandings tTieBreak).map (fun s => s.name)) = ["Zeta", "Alpha"] ∧
    ¬ List.Sorted (· ≤ ·) ((computeStandings tTieBreak).map (fun s => s.name)) := by
  have h4 : ((computeStandings tTieBreak).map (fun s => s.name)) = ["Zeta", "Alpha"] := by
    norm_num +decide [computeStandings, List.insertionSort, List.orderedInsert, standingLE,
      cmpStandings, teamRow, accumulate, completedFor, accMatch, penaltyPointsOf,
      tTieBreak, mUpset, cfgOnes, teamA, teamZ, maxOversOf]
  refine ⟨?_, ?_, ?_, h4, ?_⟩
  · norm_num +decide [computeStandings, List.insertionSort, List.orderedInsert, standingLE,
      cmpStandings, teamRow, accumulate, completedFor, accMatch, penaltyPointsOf,
      tTieBreak, mUpset, cfgOnes, teamA, teamZ, maxOversOf]
  · norm_num +decide [computeStandings, List.insertionSort, List.orderedInsert, standingLE,
      cmpStandings, teamRow, accumulate, completedFor, accMatch, penaltyPointsOf,
      tTieBreak, mUpset, cfgOnes, teamA, teamZ, maxOversOf]
  · norm_num +decide [computeStandings, List.insertionSort, List.orderedInsert, standingLE,
      cmpStandings, teamRow, accumulate, completedFor, accMatch, penaltyPointsOf,
      tTieBreak, mUpset, cfgOnes, teamA, teamZ, maxOversOf]
  · rw [h4]
    intro hsort
    have hle : ("Zeta" : String) ≤ "Alpha" :=
      (List.sorted_cons.mp hsort).1 "Alpha" (by simp)
    exact absurd hle (by rw [not_le, String.lt_iff_toList_lt]; decide)

/-- **C3 (amended).** `computeStandings` returns the rows sorted by the
comparator — adjusted points descending, then NRR descending, then wins
descending, then name ascending — as a permutation of the per-team rows; the
comparator value is zero only when all four keys agree, so on rows with
distinct names it is a total order with no ties, and two teams with identical
points, identical NRR *and identical wins* are ordered by ascending name
(identical points and NRR alone are ordered by win count first). -/
theorem c3_ranking_order_amended (t : Tournament) :
    List.Sorted standingLE (computeStandings t) ∧
    (computeStandings t).Perm (t.teams.map (teamRow t)) ∧
    (∀ a b : Standing, cmpStandings a b = 0 →
        a.pts = b.pts ∧ a.nrr = b.nrr ∧ a.mw = b.mw ∧ a.name = b.name) ∧
    (∀ a b : Standing, a.name ≠ b.name →
        cmpStandings a b < 0 ∨ 0 < cmpStandings a b) ∧
    List.Pairwise
      (fun a b => a.pts = b.pts → a.nrr = b.nrr → a.mw = b.mw → a.name ≤ b.name)
      (computeStandings t) := by
  have hs : List.Sorted standingLE (computeStandings t) :=
    @List.sorted_insertionSort _ standingLE _ ⟨standingLE_total⟩ ⟨standingLE_trans⟩ _
  refine ⟨hs, List.perm_insertionSort _ _, ?_, ?_, ?_⟩
  · exact fun a b h => (cmpStandings_eq_zero_iff a b).mp h
  · intro a b hne
    rcases lt_trichotomy (cmpStandings a b) 0 with h | h | h
    · exact Or.inl h
    · exact absurd ((cmpStandings_eq_zero_iff a b).mp h).2.2.2 hne
    · exact Or.inr h
  · refine hs.imp ?_
    intro a b hab hp hn hw
    rcases (standingLE_iff a b).mp hab with h | ⟨-, h | ⟨-, h | ⟨-, h⟩⟩⟩
    · exact absurd hp.symm (ne_of_lt h)
    · exact absurd hn.symm (ne_of_lt h)
    · exact absurd hw.symm (ne_of_lt h)
    · exact h

/-- Witness for the amended C3: the totality clause applied to the two
concrete rows of `tTieBreak`, whose names differ. -/
theorem c3_ranking_order_amended_witness :
    cmpStandings (teamRow tTieBreak teamZ) (teamRow tTieBreak teamA) < 0 ∨
      0 < cmpStandings (teamRow tTieBreak teamZ) (teamRow tTieBreak teamA) :=
  (c3_ranking_order_amended tTieBreak).2.2.2.1 _ _ (by decide)

/-! Rotation and indexing lemmas for the circle method. -/

theorem rotateOnce_cons {α : Type _} (h : α) (t : List α) :
    rotateOnce (h :: t) = h :: t.rotate (t.length - 1) := by
  induction t using List.reverseRecOn with
  | nil => simp [rotateOnce]
  | append_singleton l x ih =>
    have hlen : (l ++ [x]).length - 1 = l.length := by simp
    simp [rotateOnce, List.getLast?_concat, List.dropLast_concat, hlen,
      List.rotate_append_length_eq]

theorem length_rotateOnce {α : Type _} (l : List α) : (rotateOnce l).length = l.length := by
  cases l with
  | nil => rfl
  | cons h t => simp [rotateOnce_cons]

theorem mem_rotateOnce {α : Type _} (l : List α) (x : α) : x ∈ rotateOnce l ↔ x ∈ l := by
  cases l with
  | nil => simp [rotateOnce]
  | cons h t => simp [rotateOnce_cons, List.mem_rotate]

theorem nodup_rotateOnce {α : Type _} (l : List α) : (rotateOnce l).Nodup ↔ l.Nodup := by
  cases l with
  | nil => simp [rotateOnce]
  | cons h t => simp [rotateOnce_cons, List.nodup_cons, List.nodup_rotate, List.mem_rotate]

theorem rotateOnce_map {α β : Type _} (f : α → β) (l : List α) :
    rotateOnce (l.map f) = (rotateOnce l).map f := by
  cases l with
  | nil => rfl
  | cons h t => simp [rotateOnce_cons, List.map_rotate]

theorem rotateOnce_rotate (h : String) (t : List String) (c : Nat) :
    rotateOnce (h :: t.rotate c) = h :: t.rotate (c + (t.length - 1)) := by
  rw [rotateOnce_cons]
  simp [List.rotate_rotate]

theorem rotate_getD (t : List String) (c i : Nat) (hi : i < t.length) :
    (t.rotate c).getD i "" = t.getD ((i + c) % t.length) "" := by
  rw [List.getD_eq_getElem?_getD, List.getD_eq_getElem?_getD, List.getElem?_rotate hi]

theorem getD_mem_of_lt (t : List String) (i : Nat) (hi : i < t.length) :
    t.getD i "" ∈ t := by
  rw [List.getD_eq_getElem _ _ hi]
  exact List.getElem_mem hi

theorem nodup_getD_inj (t : List String) (ht : t.Nodup) {i j : Nat}
    (hi : i < t.length) (hj : j < t.length) (hij : t.getD i "" = t.getD j "") : i = j := by
  rw [List.getD_eq_getElem _ _ hi, List.getD_eq_getElem _ _ hj] at hij
  exact (ht.getElem_inj_iff).mp hij

theorem getD_modeq_inj (t : List String) (ht : t.Nodup) (hq : 0 < t.length) {x y : Nat}
    (hxy : t.getD (x % t.length) "" = t.getD (y % t.length) "") : x ≡ y [MOD t.length] :=
  nodup_getD_inj t ht (Nat.mod_lt _ hq) (Nat.mod_lt _ hq) hxy

theorem pair_eq_pair_iff {a b c d : String} (hab : a ≠ b) :
    ({a, b} : Finset String) = {c, d} ↔ (a = c ∧ b = d) ∨ (a = d ∧ b = c) := by
  constructor
  · intro hcd
    have ha : a ∈ ({a, b} : Finset String) := Finset.mem_insert_self a {b}
    have hb : b ∈ ({a, b} : Finset String) :=
      Finset.mem_insert_of_mem (Finset.mem_singleton_self b)
    rw [hcd] at ha hb
    simp only [Finset.mem_insert, Finset.mem_singleton] at ha hb
    rcases ha with h1 | h1
    · rcases hb with h2 | h2
      · exact absurd (h1.trans h2.symm) hab
      · exact Or.inl ⟨h1, h2⟩
    · rcases hb with h2 | h2
      · exact Or.inr ⟨h1, h2⟩
      · exact absurd (h1.trans h2.symm) hab
  · rintro (⟨rfl, rfl⟩ | ⟨rfl, rfl⟩)
    · rfl
    · exact Finset.pair_comm a b

theorem coprime_sub_one (q : Nat) (hq : 1 ≤ q) : Nat.Coprime (q - 1) q := by
  have h : Nat.gcd (q - 1) q = Nat.gcd (q - 1) 1 := by
    nth_rewrite 2 [show q = 1 + (q - 1) by omega]
    exact Nat.gcd_add_self_right (q - 1) 1
  simp [Nat.Coprime, h]

theorem coprime_two_of_odd (q : Nat) (hq : q % 2 = 1) : Nat.Coprime 2 q :=
  (Nat.prime_two.coprime_iff_not_dvd).mpr (by omega)

theorem modeq_cancel_mul_sub_one (q : Nat) (hq1 : 1 ≤ q) {j j' : Nat}
    (h : (q - 1) * j ≡ (q - 1) * j' [MOD q]) : j ≡ j' [MOD q] :=
  Nat.ModEq.cancel_left_of_coprime (Nat.coprime_comm.mp (coprime_sub_one q hq1)) h

theorem modeq_cancel_two_mul_sub_one (q : Nat) (hodd : q % 2 = 1) {j j' : Nat}
    (h : 2 * (q - 1) * j ≡ 2 * (q - 1) * j' [MOD q]) : j ≡ j' [MOD q] := by
  have h1 : Nat.Coprime q (2 * (q - 1)) :=
    Nat.coprime_comm.mp
      ((coprime_two_of_odd q hodd).mul (coprime_sub_one q (by omega)))
  exact Nat.ModEq.cancel_left_of_coprime h1 h

/-! Structure of the pairing streams. -/

theorem length_roundPairsAll (pool : List String) (r : Nat) :
    (roundPairsAll pool r).length = pool.length / 2 := by
  simp [roundPairsAll]

theorem length_genPairsAll (pool : List String) (r k : Nat) :
    (genPairsAll pool r k).length = k * (pool.length / 2) := by
  induction k generalizing pool r with
  | zero => simp [genPairsAll]
  | succ n ih =>
    simp only [genPairsAll, List.length_append, length_roundPairsAll, ih, length_rotateOnce]
    ring

theorem mem_roundPairsAll (pool : List String) (r : Nat) (p : Nat × String × String) :
    p ∈ roundPairsAll pool r ↔
      ∃ m, m < pool.length / 2 ∧
        p = (r + 1, pool.getD m "", pool.getD (pool.length - 1 - m) "") := by
  constructor
  · intro hp
    obtain ⟨m, hm, he⟩ := List.mem_map.mp hp
    exact ⟨m, List.mem_range.mp hm, he.symm⟩
  · rintro ⟨m, hm, rfl⟩
    exact List.mem_map.mpr ⟨m, List.mem_range.mpr hm, rfl⟩

theorem genPairsAll_mem_char (h : String) (t : List String) :
    ∀ (k c r : Nat) (p : Nat × String × String),
      p ∈ genPairsAll (h :: t.rotate c) r k →
      ∃ j, j < k ∧ p ∈ roundPairsAll (h :: t.rotate (c + (t.length - 1) * j)) (r + j) := by
  intro k
  induction k with
  | zero =>
    intro c r p hp
    simp [genPairsAll] at hp
  | succ n ih =>
    intro c r p hp
    simp only [genPairsAll] at hp
    rcases List.mem_append.mp hp with hp | hp
    · refine ⟨0, Nat.succ_pos n, ?_⟩
      simpa using hp
    · rw [rotateOnce_rotate] at hp
      obtain ⟨j, hj, hmem⟩ := ih (c + (t.length - 1)) (r + 1) p hp
      refine ⟨j + 1, by omega, ?_⟩
      have e1 : c + (t.length - 1) + (t.length - 1) * j = c + (t.length - 1) * (j + 1) := by
        ring
      have e2 : r + 1 + j = r + (j + 1) := by omega
      rwa [e1, e2] at hmem

theorem genPairs_eq_filter (pool : List String) (r k : Nat) :
    genPairs pool r k = (genPairsAll pool r k).filter byeOK := by
  induction k generalizing pool r with
  | zero => simp [genPairs, genPairsAll]
  | succ n ih => simp [genPairs, genPairsAll, roundPairs, ih, List.filter_append]

/-! Projection of the full generator onto (round, team ids). -/

theorem ids_getD (pool : List Team) (m : Nat) :
    (pool.map Team.id).getD m "" = (pool.getD m defTeam).id := by
  rw [List.getD_eq_getElem?_getD, List.getD_eq_getElem?_getD, List.getElem?_map]
  cases hp : pool[m]? with
  | none => rfl
  | some tm => rfl

theorem genRound_foldl_proj (stadiums : List Stadium) (e : Entropy) (pool : List Team)
    (r : Nat) :
    ∀ (l : List Nat) (acc : List Match),
      ((l.foldl (fun ms m =>
          let t1 := pool.getD m defTeam
          let t2 := pool.getD (pool.length - 1 - m) defTeam
          if t1.id ≠ "BYE" ∧ t2.id ≠ "BYE" then
            ms ++ [{ id := mkMatchId r m e.now,
                     round := r + 1,
                     team1Id := t1.id,
                     team2Id := t2.id,
                     venueId := pickVenue stadiums (e.rolls ms.length),
                     status := .NOT_STARTED }]
          else ms) acc)).map matchProj
        = acc.map matchProj
          ++ ((l.map (fun m => ((r + 1 : Nat), (pool.getD m defTeam).id,
                (pool.getD (pool.length - 1 - m) defTeam).id))).filter byeOK) := by
  intro l
  induction l with
  | nil =>
    intro acc
    simp
  | cons m ms ih =>
    intro acc
    simp only [List.foldl_cons, List.map_cons, List.filter_cons]
    by_cases hcond : (pool.getD m defTeam).id ≠ "BYE" ∧
        (pool.getD (pool.length - 1 - m) defTeam).id ≠ "BYE"
    · rw [if_pos hcond, ih]
      have hb : byeOK ((r + 1 : Nat), (pool.getD m defTeam).id,
          (pool.getD (pool.length - 1 - m) defTeam).id) = true := by
        simp only [byeOK, decide_eq_true_eq]
        exact hcond
      rw [hb]
      simp [matchProj]
    · rw [if_neg hcond, ih]
      have hb : byeOK ((r + 1 : Nat), (pool.getD m defTeam).id,
          (pool.getD (pool.length - 1 - m) defTeam).id) = false := by
        simp only [byeOK, decide_eq_false_iff_not]
        exact hcond
      rw [hb]
      simp

theorem genRound_proj (stadiums : List Stadium) (e : Entropy) (pool : List Team) (r : Nat)
    (acc : List Match) :
    (genRound stadiums e pool r acc).map matchProj
      = acc.map matchProj ++ roundPairs (pool.map Team.id) r := by
  unfold genRound roundPairs roundPairsAll
  rw [genRound_foldl_proj stadiums e pool r (List.range (pool.length / 2)) acc]
  congr 1
  have hlen : (pool.map Team.id).length = pool.length := List.length_map _ _
  rw [hlen]
  congr 1
  refine List.map_congr_left ?_
  intro m hm
  simp only [entryAt, hlen, ids_getD]

theorem genRounds_proj (stadiums : List Stadium) (e : Entropy) :
    ∀ (k : Nat) (pool : List Team) (r : Nat) (acc : List Match),
      (genRounds stadiums e pool r k acc).map matchProj
        = acc.map matchProj ++ genPairs (pool.map Team.id) r k := by
  intro k
  induction k with
  | zero =>
    intro pool r acc
    simp [genRounds, genPairs]
  | succ n ih =>
    intro pool r acc
    simp only [genRounds, genPairs]
    rw [ih, genRound_proj, ← rotateOnce_map, List.append_assoc]

theorem generateMatches_proj_even (teams : List Team) (stadiums : List Stadium) (e : Entropy)
    (hpar : teams.length % 2 = 0) :
    (generateMatches teams stadiums e).map matchProj
      = genPairs (teams.map Team.id) 0 (teams.length - 1) := by
  unfold generateMatches
  rw [if_neg (by omega)]
  rw [genRounds_proj]
  simp

theorem generateMatches_proj_odd (teams : List Team) (stadiums : List Stadium) (e : Entropy)
    (hpar : teams.length % 2 = 1) :
    (generateMatches teams stadiums e).map matchProj
      = genPairs (teams.map Team.id ++ ["BYE"]) 0 teams.length := by
  unfold generateMatches
  rw [if_pos (by omega)]
  rw [genRounds_proj]
  simp [byeTeam]

/-! The label arithmetic of the circle method. -/

theorem modeq_eq_of_lt {n a b : Nat} (h : a ≡ b [MOD n]) (ha : a < n) (hb : b < n) :
    a = b := by
  have h2 : a % n = b % n := h
  rwa [Nat.mod_eq_of_lt ha, Nat.mod_eq_of_lt hb] at h2

theorem entryAt_zero (h : String) (t : List String) (c r : Nat) (hq : 0 < t.length) :
    entryAt (h :: t.rotate c) r 0
      = (r + 1, h, t.getD ((t.length - 1 + c) % t.length) "") := by
  unfold entryAt
  have hlen : (h :: t.rotate c).length = t.length + 1 := by simp
  rw [hlen]
  have hidx : t.length + 1 - 1 - 0 = (t.length - 1) + 1 := by omega
  rw [hidx, List.getD_cons_zero, List.getD_cons_succ,
    rotate_getD t c (t.length - 1) (by omega)]

theorem entryAt_pos (h : String) (t : List String) (c r m : Nat)
    (hm1 : 1 ≤ m) (hm2 : m < (t.length + 1) / 2) :
    entryAt (h :: t.rotate c) r m
      = (r + 1, t.getD ((m - 1 + c) % t.length) "",
         t.getD ((t.length - 1 - m + c) % t.length) "") := by
  have hq : 0 < t.length := by omega
  unfold entryAt
  have hlen : (h :: t.rotate c).length = t.length + 1 := by simp
  rw [hlen]
  have hidx1 : m = (m - 1) + 1 := by omega
  have hidx2 : t.length + 1 - 1 - m = (t.length - 1 - m) + 1 := by omega
  rw [hidx2, List.getD_cons_succ, rotate_getD t c (t.length - 1 - m) (by omega)]
  nth_rewrite 1 [hidx1]
  rw [List.getD_cons_succ, rotate_getD t c (m - 1) (by omega)]

theorem head_ne_tval (h : String) (t : List String) (hnd : (h :: t).Nodup)
    (hq : 0 < t.length) (x : Nat) : h ≠ t.getD (x % t.length) "" := by
  intro he
  apply (List.nodup_cons.mp hnd).1
  rw [he]
  exact getD_mem_of_lt t _ (Nat.mod_lt _ hq)

theorem tval_pair_ne (t : List String) (hndt : t.Nodup) (hodd : t.length % 2 = 1)
    {m : Nat} (c : Nat) (hm1 : 1 ≤ m) (hm2 : m < (t.length + 1) / 2) :
    t.getD ((m - 1 + c) % t.length) "" ≠ t.getD ((t.length - 1 - m + c) % t.length) "" := by
  have hq : 0 < t.length := by omega
  intro he
  have hmod : m - 1 + c ≡ t.length - 1 - m + c [MOD t.length] :=
    getD_modeq_inj t hndt hq he
  have hmod2 : m - 1 ≡ t.length - 1 - m [MOD t.length] :=
    Nat.ModEq.add_right_cancel' c hmod
  have heq : m - 1 = t.length - 1 - m :=
    modeq_eq_of_lt hmod2 (by omega) (by omega)
  omega

theorem entryAt_comp_ne (h : String) (t : List String) (hnd : (h :: t).Nodup)
    (hodd : t.length % 2 = 1) (c r : Nat) {m : Nat} (hm : m < (t.length + 1) / 2) :
    (entryAt (h :: t.rotate c) r m).2.1 ≠ (entryAt (h :: t.rotate c) r m).2.2 := by
  have hq : 0 < t.length := by omega
  rcases Nat.eq_zero_or_pos m with rfl | hm1
  · rw [entryAt_zero h t c r hq]
    exact head_ne_tval h t hnd hq _
  · rw [entryAt_pos h t c r m hm1 hm]
    exact tval_pair_ne t (List.nodup_cons.mp hnd).2 hodd c hm1 hm

theorem entry_pairF_inj (h : String) (t : List String) (hnd : (h :: t).Nodup)
    (hodd : t.length % 2 = 1) {j j' m m' r r' : Nat}
    (hj : j < t.length) (hj' : j' < t.length)
    (hm : m < (t.length + 1) / 2) (hm' : m' < (t.length + 1) / 2)
    (heq : pairF (entryAt (h :: t.rotate ((t.length - 1) * j)) r m)
         = pairF (entryAt (h :: t.rotate ((t.length - 1) * j')) r' m')) :
    j = j' ∧ m = m' := by
  have hq : 0 < t.length := by omega
  have hndt : t.Nodup := (List.nodup_cons.mp hnd).2
  rcases Nat.eq_zero_or_pos m with rfl | hm1 <;>
    rcases Nat.eq_zero_or_pos m' with rfl | hm1'
  · -- both seats 0: the pairs are {h, x} and {h, x'}
    rw [entryAt_zero h t _ r hq, entryAt_zero h t _ r' hq] at heq
    unfold pairF at heq
    have hne : h ≠ t.getD ((t.length - 1 + (t.length - 1) * j) % t.length) "" :=
      head_ne_tval h t hnd hq _
    rcases (pair_eq_pair_iff hne).mp heq with ⟨-, hvv⟩ | ⟨hhv, -⟩
    · have hmod : t.length - 1 + (t.length - 1) * j
          ≡ t.length - 1 + (t.length - 1) * j' [MOD t.length] :=
        getD_modeq_inj t hndt hq hvv
      have hmod2 : (t.length - 1) * j ≡ (t.length - 1) * j' [MOD t.length] :=
        Nat.ModEq.add_left_cancel' (t.length - 1) hmod
      have hjj : j ≡ j' [MOD t.length] :=
        modeq_cancel_mul_sub_one t.length (by omega) hmod2
      exact ⟨modeq_eq_of_lt hjj hj hj', rfl⟩
    · exact absurd hhv (head_ne_tval h t hnd hq _)
  · -- seat 0 against a positive seat: h occurs only in the first pair
    rw [entryAt_zero h t _ r hq, entryAt_pos h t _ r' m' hm1' hm'] at heq
    unfold pairF at heq
    have hne : h ≠ t.getD ((t.length - 1 + (t.length - 1) * j) % t.length) "" :=
      head_ne_tval h t hnd hq _
    rcases (pair_eq_pair_iff hne).mp heq with ⟨hhv, -⟩ | ⟨hhv, -⟩
    · exact absurd hhv (head_ne_tval h t hnd hq _)
    · exact absurd hhv (head_ne_tval h t hnd hq _)
  · -- positive seat against seat 0, symmetric
    rw [entryAt_pos h t _ r m hm1 hm, entryAt_zero h t _ r' hq] at heq
    unfold pairF at heq
    have hne : t.getD ((m - 1 + (t.length - 1) * j) % t.length) ""
        ≠ t.getD ((t.length - 1 - m + (t.length - 1) * j) % t.length) "" :=
      tval_pair_ne t hndt hodd _ hm1 hm
    rcases (pair_eq_pair_iff hne).mp heq with ⟨hhv, -⟩ | ⟨-, hhv⟩
    · exact absurd hhv.symm (head_ne_tval h t hnd hq _)
    · exact absurd hhv.symm (head_ne_tval h t hnd hq _)
  · -- two positive seats
    rw [entryAt_pos h t _ r m hm1 hm, entryAt_pos h t _ r' m' hm1' hm'] at heq
    unfold pairF at heq
    have hne : t.getD ((m - 1 + (t.length - 1) * j) % t.length) ""
        ≠ t.getD ((t.length - 1 - m + (t.length - 1) * j) % t.length) "" :=
      tval_pair_ne t hndt hodd _ hm1 hm
    rcases (pair_eq_pair_iff hne).mp heq with ⟨hAA, hBB⟩ | ⟨hAB, hBA⟩
    · have hA : m - 1 + (t.length - 1) * j ≡ m' - 1 + (t.length - 1) * j' [MOD t.length] :=
        getD_modeq_inj t hndt hq hAA
      have hB : t.length - 1 - m + (t.length - 1) * j
          ≡ t.length - 1 - m' + (t.length - 1) * j' [MOD t.length] :=
        getD_modeq_inj t hndt hq hBB
      have hS : m - 1 + (t.length - 1) * j + (t.length - 1 - m + (t.length - 1) * j)
          ≡ m' - 1 + (t.length - 1) * j' + (t.length - 1 - m' + (t.length - 1) * j')
          [MOD t.length] := Nat.ModEq.add hA hB
      have hE : m - 1 + (t.length - 1) * j + (t.length - 1 - m + (t.length - 1) * j)
          = (t.length - 2) + ((t.length - 1) * j + (t.length - 1) * j) := by omega
      have hE' : m' - 1 + (t.length - 1) * j' + (t.length - 1 - m' + (t.length - 1) * j')
          = (t.length - 2) + ((t.length - 1) * j' + (t.length - 1) * j') := by omega
      rw [hE, hE'] at hS
      have hS1 : (t.length - 1) * j + (t.length - 1) * j
          ≡ (t.length - 1) * j' + (t.length - 1) * j' [MOD t.length] :=
        Nat.ModEq.add_left_cancel' (t.length - 2) hS
      have h2e : ∀ x : Nat, 2 * (t.length - 1) * x = (t.length - 1) * x + (t.length - 1) * x :=
        fun x => by ring
      have hS2 : 2 * (t.length - 1) * j ≡ 2 * (t.length - 1) * j' [MOD t.length] := by
        rw [h2e j, h2e j']
        exact hS1
      have hjj : j = j' :=
        modeq_eq_of_lt (modeq_cancel_two_mul_sub_one t.length hodd hS2) hj hj'
      subst hjj
      have hA2 : m - 1 ≡ m' - 1 [MOD t.length] :=
        Nat.ModEq.add_right_cancel' ((t.length - 1) * j) hA
      have hmm : m - 1 = m' - 1 := modeq_eq_of_lt hA2 (by omega) (by omega)
      exact ⟨rfl, by omega⟩
    · have hA : m - 1 + (t.length - 1) * j
          ≡ t.length - 1 - m' + (t.length - 1) * j' [MOD t.length] :=
        getD_modeq_inj t hndt hq hAB
      have hB : t.length - 1 - m + (t.length - 1) * j
          ≡ m' - 1 + (t.length - 1) * j' [MOD t.length] :=
        getD_modeq_inj t hndt hq hBA
      have hS : m - 1 + (t.length - 1) * j + (t.length - 1 - m + (t.length - 1) * j)
          ≡ t.length - 1 - m' + (t.length - 1) * j' + (m' - 1 + (t.length - 1) * j')
          [MOD t.length] := Nat.ModEq.add hA hB
      have hE : m - 1 + (t.length - 1) * j + (t.length - 1 - m + (t.length - 1) * j)
          = (t.length - 2) + ((t.length - 1) * j + (t.length - 1) * j) := by omega
      have hE' : t.length - 1 - m' + (t.length - 1) * j' + (m' - 1 + (t.length - 1) * j')
          = (t.length - 2) + ((t.length - 1) * j' + (t.length - 1) * j') := by omega
      rw [hE, hE'] at hS
      have hS1 : (t.length - 1) * j + (t.length - 1) * j
          ≡ (t.length - 1) * j' + (t.length - 1) * j' [MOD t.length] :=
        Nat.ModEq.add_left_cancel' (t.length - 2) hS
      have h2e : ∀ x : Nat, 2 * (t.length - 1) * x = (t.length - 1) * x + (t.length - 1) * x :=
        fun x => by ring
      have hS2 : 2 * (t.length - 1) * j ≡ 2 * (t.length - 1) * j' [MOD t.length] := by
        rw [h2e j, h2e j']
        exact hS1
      have hjj : j = j' :=
        modeq_eq_of_lt (modeq_cancel_two_mul_sub_one t.length hodd hS2) hj hj'
      subst hjj
      have hA2 : m - 1 ≡ t.length - 1 - m' [MOD t.length] :=
        Nat.ModEq.add_right_cancel' ((t.length - 1) * j) hA
      have hmm : m - 1 = t.length - 1 - m' := modeq_eq_of_lt hA2 (by omega) (by omega)
      omega

/-! No unordered pair is generated twice. -/

theorem mem_roundPairsAll_entry {pool : List String} {r : Nat} {p : Nat × String × String}
    (hp : p ∈ roundPairsAll pool r) :
    ∃ m, m < pool.length / 2 ∧ p = entryAt pool r m := by
  obtain ⟨m, hm, he⟩ := List.mem_map.mp hp
  exact ⟨m, List.mem_range.mp hm, he.symm⟩

theorem entryAt_mem_roundPairsAll {pool : List String} {r m : Nat}
    (hm : m < pool.length / 2) : entryAt pool r m ∈ roundPairsAll pool r :=
  List.mem_map.mpr ⟨m, List.mem_range.mpr hm, rfl⟩

theorem roundPairsAll_pairF_nodup (h : String) (t : List String) (hnd : (h :: t).Nodup)
    (hodd : t.length % 2 = 1) (j r : Nat) (hj : j < t.length) :
    ((roundPairsAll (h :: t.rotate ((t.length - 1) * j)) r).map pairF).Nodup := by
  unfold roundPairsAll
  rw [List.map_map]
  refine List.Nodup.map_on ?_ (List.nodup_range _)
  intro m hm m' hm' hmm
  have hlen : (h :: t.rotate ((t.length - 1) * j)).length = t.length + 1 := by simp
  rw [List.mem_range, hlen] at hm hm'
  exact (entry_pairF_inj h t hnd hodd hj hj hm hm' hmm).2

theorem genPairsAll_pairF_nodup (h : String) (t : List String) (hnd : (h :: t).Nodup)
    (hodd : t.length % 2 = 1) :
    ∀ (k j0 r : Nat), j0 + k ≤ t.length →
      ((genPairsAll (h :: t.rotate ((t.length - 1) * j0)) r k).map pairF).Nodup := by
  intro k
  induction k with
  | zero =>
    intro j0 r hk
    simp [genPairsAll]
  | succ n ih =>
    intro j0 r hk
    simp only [genPairsAll, List.map_append]
    rw [List.nodup_append]
    refine ⟨roundPairsAll_pairF_nodup h t hnd hodd j0 r (by omega), ?_, ?_⟩
    · rw [rotateOnce_rotate]
      have he : (t.length - 1) * j0 + (t.length - 1) = (t.length - 1) * (j0 + 1) := by
        ring
      rw [he]
      exact ih (j0 + 1) (r + 1) (by omega)
    · intro x hx hx'
      obtain ⟨p, hp, rfl⟩ := List.mem_map.mp hx
      rw [rotateOnce_rotate] at hx'
      obtain ⟨p', hp', hpp⟩ := List.mem_map.mp hx'
      obtain ⟨jd, hjd, hp'mem⟩ :=
        genPairsAll_mem_char h t n ((t.length - 1) * j0 + (t.length - 1)) (r + 1) p' hp'
      have he : (t.length - 1) * j0 + (t.length - 1) + (t.length - 1) * jd
          = (t.length - 1) * (j0 + 1 + jd) := by ring
      rw [he] at hp'mem
      obtain ⟨m, hm, rfl⟩ := mem_roundPairsAll_entry hp
      obtain ⟨m', hm', rfl⟩ := mem_roundPairsAll_entry hp'mem
      have hlen : ∀ c : Nat, (h :: t.rotate c).length = t.length + 1 := fun c => by simp
      rw [hlen] at hm hm'
      have hj0 : j0 < t.length := by omega
      have hj1 : j0 + 1 + jd < t.length := by omega
      have := (entry_pairF_inj h t hnd hodd hj0 hj1 hm hm' hpp.symm).1
      omega

theorem genPairsAll_comp_props (h : String) (t : List String) (hnd : (h :: t).Nodup)
    (hodd : t.length % 2 = 1) {k r : Nat}
    {p : Nat × String × String} (hp : p ∈ genPairsAll (h :: t) r k) :
    p.2.1 ∈ h :: t ∧ p.2.2 ∈ h :: t ∧ p.2.1 ≠ p.2.2 ∧ r + 1 ≤ p.1 ∧ p.1 ≤ r + k := by
  have hq : 0 < t.length := by omega
  have ht0 : t.rotate ((t.length - 1) * 0) = t := by simp
  rw [← ht0] at hp
  obtain ⟨j, hj, hpj⟩ := genPairsAll_mem_char h t k ((t.length - 1) * 0) r p hp
  have he : (t.length - 1) * 0 + (t.length - 1) * j = (t.length - 1) * j := by ring
  rw [he] at hpj
  obtain ⟨m, hm, rfl⟩ := mem_roundPairsAll_entry hpj
  have hlen : (h :: t.rotate ((t.length - 1) * j)).length = t.length + 1 := by simp
  rw [hlen] at hm
  have hne := entryAt_comp_ne h t hnd hodd ((t.length - 1) * j) (r + j) hm
  refine ⟨?_, ?_, hne, ?_, ?_⟩
  · rcases Nat.eq_zero_or_pos m with rfl | hm1
    · rw [entryAt_zero h t _ _ hq]
      exact List.mem_cons_self h t
    · rw [entryAt_pos h t _ _ m hm1 hm]
      exact List.mem_cons_of_mem h (getD_mem_of_lt t _ (Nat.mod_lt _ hq))
  · rcases Nat.eq_zero_or_pos m with rfl | hm1
    · rw [entryAt_zero h t _ _ hq]
      exact List.mem_cons_of_mem h (getD_mem_of_lt t _ (Nat.mod_lt _ hq))
    · rw [entryAt_pos h t _ _ m hm1 hm]
      exact List.mem_cons_of_mem h (getD_mem_of_lt t _ (Nat.mod_lt _ hq))
  · simp only [entryAt]
    omega
  · simp only [entryAt]
    omega

/-! Every round keeps at least one match after bye filtering. -/

theorem roundPairs_nonempty_no_bye (pool : List String) (r : Nat)
    (hbye : "BYE" ∉ pool) (hlen : 2 ≤ pool.length) :
    ∃ p ∈ roundPairs pool r, p.1 = r + 1 := by
  refine ⟨entryAt pool r 0, List.mem_filter.mpr ⟨entryAt_mem_roundPairsAll (by omega), ?_⟩, rfl⟩
  simp only [byeOK, entryAt, decide_eq_true_eq]
  constructor
  · intro he
    exact hbye (by rw [← he]; exact getD_mem_of_lt pool 0 (by omega))
  · intro he
    exact hbye (by rw [← he]; exact getD_mem_of_lt pool _ (by omega))

theorem roundPairs_nonempty_nodup (pool : List String) (r : Nat)
    (hnd : pool.Nodup) (hlen : 4 ≤ pool.length) :
    ∃ p ∈ roundPairs pool r, p.1 = r + 1 := by
  by_cases h0 : byeOK (entryAt pool r 0) = true
  · exact ⟨entryAt pool r 0,
      List.mem_filter.mpr ⟨entryAt_mem_roundPairsAll (by omega), h0⟩, rfl⟩
  · refine ⟨entryAt pool r 1,
      List.mem_filter.mpr ⟨entryAt_mem_roundPairsAll (by omega), ?_⟩, rfl⟩
    simp only [byeOK, entryAt, decide_eq_true_eq] at h0 ⊢
    have hOR : pool.getD 0 "" = "BYE" ∨ pool.getD (pool.length - 1 - 0) "" = "BYE" := by
      rcases not_and_or.mp h0 with h | h
      · exact Or.inl (not_not.mp h)
      · exact Or.inr (not_not.mp h)
    have hinj : ∀ {i j : Nat}, i < pool.length → j < pool.length →
        pool.getD i "" = "BYE" → pool.getD j "" = "BYE" → i = j :=
      fun hi hj he1 he2 => nodup_getD_inj pool hnd hi hj (he1.trans he2.symm)
    constructor
    · intro he
      rcases hOR with h | h
      · have := hinj (by omega) (by omega) he h
        omega
      · have := hinj (by omega) (by omega) he h
        omega
    · intro he
      rcases hOR with h | h
      · have := hinj (by omega) (by omega) he h
        omega
      · have := hinj (by omega) (by omega) he h
        omega

theorem genPairs_round_exists (inv : List String → Prop)
    (hpres : ∀ pool, inv pool → inv (rotateOnce pool))
    (hex : ∀ pool r, inv pool → ∃ p ∈ roundPairs pool r, p.1 = r + 1) :
    ∀ (k : Nat) (pool : List String) (r j : Nat), inv pool → j < k →
      ∃ p ∈ genPairs pool r k, p.1 = r + j + 1 := by
  intro k
  induction k with
  | zero =>
    intro pool r j hi hj
    omega
  | succ n ih =>
    intro pool r j hi hj
    rcases Nat.eq_zero_or_pos j with rfl | hj0
    · obtain ⟨p, hp, he⟩ := hex pool r hi
      refine ⟨p, ?_, he⟩
      simp only [genPairs]
      exact List.mem_append.mpr (Or.inl hp)
    · obtain ⟨p, hp, he⟩ := ih (rotateOnce pool) (r + 1) (j - 1) (hpres pool hi) (by omega)
      refine ⟨p, ?_, by omega⟩
      simp only [genPairs]
      exact List.mem_append.mpr (Or.inr hp)

/-! The master counting argument at the pool level. -/

theorem genPairs_pool_master (pool : List String) (hne : pool ≠ [])
    (hpar : pool.length % 2 = 0) (hnd : pool.Nodup) :
    ((genPairs pool 0 (pool.length - 1)).map pairF).Nodup ∧
    (∀ p ∈ genPairs pool 0 (pool.length - 1),
        p.2.1 ∈ pool ∧ p.2.2 ∈ pool ∧ p.2.1 ≠ p.2.2 ∧ 1 ≤ p.1 ∧ p.1 ≤ pool.length - 1) ∧
    (∀ a b : String, a ∈ pool → b ∈ pool → a ≠ b → a ≠ "BYE" → b ≠ "BYE" →
        ({a, b} : Finset String) ∈ (genPairs pool 0 (pool.length - 1)).map pairF) := by
  obtain ⟨h, t, rfl⟩ : ∃ h t, pool = h :: t := by
    cases pool with
    | nil => exact absurd rfl hne
    | cons h t => exact ⟨h, t, rfl⟩
  have hql : (h :: t).length = t.length + 1 := by simp
  have hodd : t.length % 2 = 1 := by
    rw [hql] at hpar
    omega
  have hk : (h :: t).length - 1 = t.length := by
    simp
  have hAnodup : ((genPairsAll (h :: t) 0 ((h :: t).length - 1)).map pairF).Nodup := by
    rw [hk]
    have ht0 : t.rotate ((t.length - 1) * 0) = t := by simp
    have hres := genPairsAll_pairF_nodup h t hnd hodd t.length 0 0 (by omega)
    rwa [ht0] at hres
  have hsub : List.Sublist (genPairs (h :: t) 0 ((h :: t).length - 1))
      (genPairsAll (h :: t) 0 ((h :: t).length - 1)) := by
    rw [genPairs_eq_filter]
    exact List.filter_sublist _
  refine ⟨((hsub.map pairF).nodup hAnodup), ?_, ?_⟩
  · intro p hp
    have hpA : p ∈ genPairsAll (h :: t) 0 ((h :: t).length - 1) := hsub.mem hp
    obtain ⟨c1, c2, c3, c4, c5⟩ := genPairsAll_comp_props h t hnd hodd hpA
    exact ⟨c1, c2, c3, by omega, by omega⟩
  · intro a b ha hb hab hA hB
    -- the unfiltered stream covers the pair, and the entry survives the filter
    have hcard : ((genPairsAll (h :: t) 0 ((h :: t).length - 1)).map pairF).toFinset
        = Finset.powersetCard 2 (h :: t).toFinset := by
      apply Finset.eq_of_subset_of_card_le
      · intro z hz
        rw [List.mem_toFinset] at hz
        obtain ⟨p, hp, rfl⟩ := List.mem_map.mp hz
        obtain ⟨h1, h2, h3, -, -⟩ := genPairsAll_comp_props h t hnd hodd hp
        simp only [pairF]
        rw [Finset.mem_powersetCard]
        constructor
        · intro x hx
          rw [List.mem_toFinset]
          rcases Finset.mem_insert.mp hx with rfl | hx2
          · exact h1
          · rw [Finset.mem_singleton.mp hx2]
            exact h2
        · rw [Finset.card_insert_of_not_mem (by simpa using h3), Finset.card_singleton]
      · rw [Finset.card_powersetCard, List.toFinset_card_of_nodup hnd,
          List.toFinset_card_of_nodup hAnodup, List.length_map,
          length_genPairsAll, Nat.choose_two_right, hql]
        obtain ⟨s, hs⟩ : 2 ∣ t.length + 1 := by omega
        rw [hs]
        rw [show 2 * s * (2 * s - 1) = 2 * (s * (2 * s - 1)) by ring]
        rw [Nat.mul_div_cancel_left _ (by norm_num : 0 < 2)]
        rw [show 2 * s / 2 = s by omega]
        exact Nat.le_of_eq (Nat.mul_comm _ _)
    have hzmem : ({a, b} : Finset String)
        ∈ (genPairsAll (h :: t) 0 ((h :: t).length - 1)).map pairF := by
      rw [← List.mem_toFinset, hcard, Finset.mem_powersetCard]
      constructor
      · intro x hx
        rw [List.mem_toFinset]
        rcases Finset.mem_insert.mp hx with rfl | hx2
        · exact ha
        · rw [Finset.mem_singleton.mp hx2]
          exact hb
      · rw [Finset.card_insert_of_not_mem (by simpa using hab), Finset.card_singleton]
    obtain ⟨p, hp, hpf⟩ := List.mem_map.mp hzmem
    obtain ⟨-, -, hne12, -, -⟩ := genPairsAll_comp_props h t hnd hodd hp
    have hcomp : (p.2.1 = a ∧ p.2.2 = b) ∨ (p.2.1 = b ∧ p.2.2 = a) :=
      (pair_eq_pair_iff hne12).mp hpf
    have hok : byeOK p = true := by
      simp only [byeOK, decide_eq_true_eq]
      rcases hcomp with ⟨e1, e2⟩ | ⟨e1, e2⟩
      · rw [e1, e2]
        exact ⟨hA, hB⟩
      · rw [e1, e2]
        exact ⟨hB, hA⟩
    refine List.mem_map.mpr ⟨p, ?_, hpf⟩
    rw [genPairs_eq_filter]
    exact List.mem_filter.mpr ⟨hp, hok⟩

/-! The master counting argument on the team ids, by parity. -/

theorem genPairs_ids_even (ids : List String) (hnd : ids.Nodup) (hbye : "BYE" ∉ ids)
    (hlen : 2 ≤ ids.length) (hpar : ids.length % 2 = 0) :
    (genPairs ids 0 (ids.length - 1)).length = ids.length * (ids.length - 1) / 2 ∧
    (∀ a b : String, a ∈ ids → b ∈ ids → a ≠ b →
        ((genPairs ids 0 (ids.length - 1)).map pairF).count {a, b} = 1) ∧
    (∀ p ∈ genPairs ids 0 (ids.length - 1),
        p.2.1 ≠ p.2.2 ∧ 1 ≤ p.1 ∧ p.1 ≤ ids.length - 1) ∧
    (∀ j, 1 ≤ j → j ≤ ids.length - 1 →
        ∃ p ∈ genPairs ids 0 (ids.length - 1), p.1 = j) := by
  have hne : ids ≠ [] := by
    intro h
    rw [h] at hlen
    simp at hlen
  obtain ⟨hnodupF, hprops, hcover⟩ := genPairs_pool_master ids hne hpar hnd
  have hcov2 : ((genPairs ids 0 (ids.length - 1)).map pairF).toFinset
      = Finset.powersetCard 2 ids.toFinset := by
    apply Finset.Subset.antisymm
    · intro z hz
      rw [List.mem_toFinset] at hz
      obtain ⟨p, hp, rfl⟩ := List.mem_map.mp hz
      obtain ⟨c1, c2, c3, -, -⟩ := hprops p hp
      simp only [pairF]
      rw [Finset.mem_powersetCard]
      refine ⟨?_, ?_⟩
      · intro x hx
        rw [List.mem_toFinset]
        rcases Finset.mem_insert.mp hx with rfl | hx2
        · exact c1
        · rw [Finset.mem_singleton.mp hx2]
          exact c2
      · rw [Finset.card_insert_of_not_mem (by simpa using c3), Finset.card_singleton]
    · intro z hz
      rw [Finset.mem_powersetCard] at hz
      obtain ⟨hzsub, hzcard⟩ := hz
      obtain ⟨a, b, hab, rfl⟩ := Finset.card_eq_two.mp hzcard
      have ha : a ∈ ids := List.mem_toFinset.mp (hzsub (Finset.mem_insert_self a {b}))
      have hb : b ∈ ids :=
        List.mem_toFinset.mp (hzsub (Finset.mem_insert_of_mem (Finset.mem_singleton_self b)))
      rw [List.mem_toFinset]
      exact hcover a b ha hb hab (fun he => hbye (he ▸ ha)) (fun he => hbye (he ▸ hb))
  refine ⟨?_, ?_, ?_, ?_⟩
  · rw [show (genPairs ids 0 (ids.length - 1)).length
        = ((genPairs ids 0 (ids.length - 1)).map pairF).length from
          (List.length_map _ _).symm,
      ← List.toFinset_card_of_nodup hnodupF, hcov2, Finset.card_powersetCard,
      List.toFinset_card_of_nodup hnd, Nat.choose_two_right]
  · intro a b ha hb hab
    apply List.count_eq_one_of_mem hnodupF
    exact hcover a b ha hb hab (fun he => hbye (he ▸ ha)) (fun he => hbye (he ▸ hb))
  · intro p hp
    obtain ⟨-, -, c3, c4, c5⟩ := hprops p hp
    exact ⟨c3, c4, c5⟩
  · intro j h1 h2
    have hpres : ∀ pool : List String, ("BYE" ∉ pool ∧ 2 ≤ pool.length) →
        ("BYE" ∉ rotateOnce pool ∧ 2 ≤ (rotateOnce pool).length) := by
      intro pool hi
      exact ⟨fun hm => hi.1 ((mem_rotateOnce pool _).mp hm), by
        rw [length_rotateOnce]
        exact hi.2⟩
    have hex : ∀ (pool : List String) (r : Nat), ("BYE" ∉ pool ∧ 2 ≤ pool.length) →
        ∃ p ∈ roundPairs pool r, p.1 = r + 1 :=
      fun pool r hi => roundPairs_nonempty_no_bye pool r hi.1 hi.2
    obtain ⟨p, hp, he⟩ := genPairs_round_exists _ hpres hex (ids.length - 1) ids 0 (j - 1)
      ⟨hbye, hlen⟩ (by omega)
    exact ⟨p, hp, by omega⟩

theorem genPairs_ids_odd (ids : List String) (hnd : ids.Nodup) (hbye : "BYE" ∉ ids)
    (hlen : 2 ≤ ids.length) (hpar : ids.length % 2 = 1) :
    (genPairs (ids ++ ["BYE"]) 0 ids.length).length = ids.length * (ids.length - 1) / 2 ∧
    (∀ a b : String, a ∈ ids → b ∈ ids → a ≠ b →
        ((genPairs (ids ++ ["BYE"]) 0 ids.length).map pairF).count {a, b} = 1) ∧
    (∀ p ∈ genPairs (ids ++ ["BYE"]) 0 ids.length,
        p.2.1 ≠ p.2.2 ∧ 1 ≤ p.1 ∧ p.1 ≤ ids.length) ∧
    (∀ j, 1 ≤ j → j ≤ ids.length →
        ∃ p ∈ genPairs (ids ++ ["BYE"]) 0 ids.length, p.1 = j) := by
  have hplen : (ids ++ ["BYE"]).length = ids.length + 1 := by simp
  have hk : (ids ++ ["BYE"]).length - 1 = ids.length := by omega
  have hne : ids ++ ["BYE"] ≠ [] := by simp
  have hpar2 : (ids ++ ["BYE"]).length % 2 = 0 := by omega
  have hndp : (ids ++ ["BYE"]).Nodup := by
    rw [List.nodup_append]
    refine ⟨hnd, List.nodup_singleton _, ?_⟩
    intro x hx hx2
    rw [List.mem_singleton] at hx2
    subst hx2
    exact hbye hx
  obtain ⟨hnodupF, hprops, hcover⟩ := genPairs_pool_master (ids ++ ["BYE"]) hne hpar2 hndp
  rw [hk] at hnodupF hprops hcover
  have hmemids : ∀ x : String, x ∈ ids → x ∈ ids ++ ["BYE"] :=
    fun x hx => List.mem_append.mpr (Or.inl hx)
  have hcov2 : ((genPairs (ids ++ ["BYE"]) 0 ids.length).map pairF).toFinset
      = Finset.powersetCard 2 ids.toFinset := by
    apply Finset.Subset.antisymm
    · intro z hz
      rw [List.mem_toFinset] at hz
      obtain ⟨p, hp, rfl⟩ := List.mem_map.mp hz
      obtain ⟨c1, c2, c3, -, -⟩ := hprops p hp
      have hpf : p ∈ (genPairsAll (ids ++ ["BYE"]) 0 ids.length).filter byeOK := by
        rw [← genPairs_eq_filter]
        exact hp
      have hok := (List.mem_filter.mp hpf).2
      simp only [byeOK, decide_eq_true_eq] at hok
      have c1' : p.2.1 ∈ ids := by
        rcases List.mem_append.mp c1 with hx | hx
        · exact hx
        · rw [List.mem_singleton] at hx
          exact absurd hx hok.1
      have c2' : p.2.2 ∈ ids := by
        rcases List.mem_append.mp c2 with hx | hx
        · exact hx
        · rw [List.mem_singleton] at hx
          exact absurd hx hok.2
      simp only [pairF]
      rw [Finset.mem_powersetCard]
      refine ⟨?_, ?_⟩
      · intro x hx
        rw [List.mem_toFinset]
        rcases Finset.mem_insert.mp hx with rfl | hx2
        · exact c1'
        · rw [Finset.mem_singleton.mp hx2]
          exact c2'
      · rw [Finset.card_insert_of_not_mem (by simpa using c3), Finset.card_singleton]
    · intro z hz
      rw [Finset.mem_powersetCard] at hz
      obtain ⟨hzsub, hzcard⟩ := hz
      obtain ⟨a, b, hab, rfl⟩ := Finset.card_eq_two.mp hzcard
      have ha : a ∈ ids := List.mem_toFinset.mp (hzsub (Finset.mem_insert_self a {b}))
      have hb : b ∈ ids :=
        List.mem_toFinset.mp (hzsub (Finset.mem_insert_of_mem (Finset.mem_singleton_self b)))
      rw [List.mem_toFinset]
      exact hcover a b (hmemids a ha) (hmemids b hb) hab
        (fun he => hbye (he ▸ ha)) (fun he => hbye (he ▸ hb))
  refine ⟨?_, ?_, ?_, ?_⟩
  · rw [show (genPairs (ids ++ ["BYE"]) 0 ids.length).length
        = ((genPairs (ids ++ ["BYE"]) 0 ids.length).map pairF).length from
          (List.length_map _ _).symm,
      ← List.toFinset_card_of_nodup hnodupF, hcov2, Finset.card_powersetCard,
      List.toFinset_card_of_nodup hnd, Nat.choose_two_right]
  · intro a b ha hb hab
    apply List.count_eq_one_of_mem hnodupF
    exact hcover a b (hmemids a ha) (hmemids b hb) hab
      (fun he => hbye (he ▸ ha)) (fun he => hbye (he ▸ hb))
  · intro p hp
    obtain ⟨-, -, c3, c4, c5⟩ := hprops p hp
    exact ⟨c3, c4, c5⟩
  · intro j h1 h2
    have hpres : ∀ pool : List String, (pool.Nodup ∧ 4 ≤ pool.length) →
        ((rotateOnce pool).Nodup ∧ 4 ≤ (rotateOnce pool).length) := by
      intro pool hi
      exact ⟨(nodup_rotateOnce pool).mpr hi.1, by
        rw [length_rotateOnce]
        exact hi.2⟩
    have hex : ∀ (pool : List String) (r : Nat), (pool.Nodup ∧ 4 ≤ pool.length) →
        ∃ p ∈ roundPairs pool r, p.1 = r + 1 :=
      fun pool r hi => roundPairs_nonempty_nodup pool r hi.1 hi.2
    obtain ⟨p, hp, he⟩ := genPairs_round_exists _ hpres hex ids.length (ids ++ ["BYE"]) 0
      (j - 1) ⟨hndp, by omega⟩ (by omega)
    exact ⟨p, hp, by omega⟩

theorem pairCount_eq_count (ms : List Match) (a b : String)
    (hdist : ∀ p ∈ ms.map matchProj, p.2.1 ≠ p.2.2) :
    pairCount ms a b = ((ms.map matchProj).map pairF).count ({a, b} : Finset String) := by
  unfold pairCount
  rw [List.count_eq_countP, List.countP_map, List.countP_map]
  apply List.countP_congr
  intro m hm
  have hne : m.team1Id ≠ m.team2Id := hdist (matchProj m) (List.mem_map.mpr ⟨m, hm, rfl⟩)
  simp only [Function.comp_apply, pairF, matchProj, decide_eq_true_eq, beq_iff_eq]
  exact (pair_eq_pair_iff hne).symm

/-- **C1.** For every tournament whose team list has `N ≥ 2` members with
pairwise-distinct ids, none of them the reserved bye sentinel id `BYE`, and
for every venue list and every entropy source, `handleGenerateSchedule`
produces exactly `N·(N−1)/2` matches, each unordered pair of distinct team
ids appearing exactly once across the whole schedule, with round numbers
exactly the contiguous range from 1 to `N−1` when `N` is even and to `N`
when `N` is odd (bye pairings produce no match). -/
theorem c1_round_robin_schedule (t : Tournament) (e : Entropy)
    (h2 : 2 ≤ t.teams.length) (hnd : (t.teams.map Team.id).Nodup)
    (hbye : "BYE" ∉ t.teams.map Team.id) :
    ((handleGenerateSchedule t e).matches).length
        = t.teams.length * (t.teams.length - 1) / 2 ∧
    (∀ a b : String, a ∈ t.teams.map Team.id → b ∈ t.teams.map Team.id → a ≠ b →
        pairCount (handleGenerateSchedule t e).matches a b = 1) ∧
    (∀ k : Nat, k ∈ ((handleGenerateSchedule t e).matches).map Match.round ↔
        (1 ≤ k ∧ k ≤ (if t.teams.length % 2 = 0 then t.teams.length - 1
                      else t.teams.length))) := by
  have hms : (handleGenerateSchedule t e).matches = generateMatches t.teams t.stadiums e := by
    unfold handleGenerateSchedule generateSchedule
    rw [if_neg (by omega)]
  rw [hms]
  have hlen2 : (t.teams.map Team.id).length = t.teams.length := List.length_map _ _
  have hrmap : (generateMatches t.teams t.stadiums e).map Match.round
      = ((generateMatches t.teams t.stadiums e).map matchProj).map (fun p => p.1) := by
    rw [List.map_map]
    rfl
  rcases Nat.even_or_odd t.teams.length with hev | hod
  · have hpar : t.teams.length % 2 = 0 := Nat.even_iff.mp hev
    have hproj := generateMatches_proj_even t.teams t.stadiums e hpar
    obtain ⟨hL, hC, hP, hR⟩ := genPairs_ids_even (t.teams.map Team.id) hnd hbye
      (by omega) (by omega)
    rw [hlen2] at hL hC hP hR
    refine ⟨?_, ?_, ?_⟩
    · rw [show (generateMatches t.teams t.stadiums e).length
          = ((generateMatches t.teams t.stadiums e).map matchProj).length from
            (List.length_map _ _).symm, hproj]
      exact hL
    · intro a b ha hb hab
      rw [pairCount_eq_count _ a b (by
        rw [hproj]
        intro p hp
        exact (hP p hp).1), hproj]
      exact hC a b ha hb hab
    · intro k
      rw [hrmap, hproj, if_pos hpar]
      constructor
      · intro hk
        obtain ⟨p, hp, he⟩ := List.mem_map.mp hk
        obtain ⟨-, hb1, hb2⟩ := hP p hp
        omega
      · intro hk
        obtain ⟨p, hp, he⟩ := hR k hk.1 hk.2
        exact List.mem_map.mpr ⟨p, hp, he⟩
  · have hpar : t.teams.length % 2 = 1 := Nat.odd_iff.mp hod
    have hproj := generateMatches_proj_odd t.teams t.stadiums e hpar
    obtain ⟨hL, hC, hP, hR⟩ := genPairs_ids_odd (t.teams.map Team.id) hnd hbye
      (by omega) (by omega)
    rw [hlen2] at hL hC hP hR
    refine ⟨?_, ?_, ?_⟩
    · rw [show (generateMatches t.teams t.stadiums e).length
          = ((generateMatches t.teams t.stadiums e).map matchProj).length from
            (List.length_map _ _).symm, hproj]
      exact hL
    · intro a b ha hb hab
      rw [pairCount_eq_count _ a b (by
        rw [hproj]
        intro p hp
        exact (hP p hp).1), hproj]
      exact hC a b ha hb hab
    · intro k
      rw [hrmap, hproj, if_neg (by omega)]
      constructor
      · intro hk
        obtain ⟨p, hp, he⟩ := List.mem_map.mp hk
        obtain ⟨-, hb1, hb2⟩ := hP p hp
        omega
      · intro hk
        obtain ⟨p, hp, he⟩ := hR k hk.1 hk.2
        exact List.mem_map.mpr ⟨p, hp, he⟩

/-- Witness for C1: the five-team tournament `tFive` receives a bye-adjusted
schedule of 10 matches across rounds 1..5 with every pair meeting once. -/
theorem c1_round_robin_schedule_witness :
    ((handleGenerateSchedule tFive e0).matches).length
        = tFive.teams.length * (tFive.teams.length - 1) / 2 ∧
    (∀ a b : String, a ∈ tFive.teams.map Team.id → b ∈ tFive.teams.map Team.id → a ≠ b →
        pairCount (handleGenerateSchedule tFive e0).matches a b = 1) ∧
    (∀ k : Nat, k ∈ ((handleGenerateSchedule tFive e0).matches).map Match.round ↔
        (1 ≤ k ∧ k ≤ (if tFive.teams.length % 2 = 0 then tFive.teams.length - 1
                      else tFive.teams.length))) :=
  c1_round_robin_schedule tFive e0 (by decide) (by decide) (by decide)

/-- **C7.** Schedule generation fails with `InsufficientTeams` exactly when
the team list has fewer than two teams, in which case the handler leaves the
tournament — in particular its match list — untouched; with at least two
teams it always succeeds (the venue list, possibly empty, is never
validated) and installs the generated matches. -/
theorem c7_insufficient_teams (t : Tournament) (e : Entropy) :
    (t.teams.length < 2 →
      generateSchedule t.teams t.stadiums e = .error .insufficientTeams ∧
      handleGenerateSchedule t e = t) ∧
    (2 ≤ t.teams.length →
      generateSchedule t.teams t.stadiums e
          = .ok (generateMatches t.teams t.stadiums e) ∧
      handleGenerateSchedule t e
        = { t with
            «matches» := generateMatches t.teams t.stadiums e,
            status := some .UPCOMING }) := by
  constructor
  · intro h
    have hg : generateSchedule t.teams t.stadiums e = .error .insufficientTeams := by
      unfold generateSchedule
      rw [if_pos h]
    refine ⟨hg, ?_⟩
    unfold handleGenerateSchedule
    rw [hg]
  · intro h
    have hg : generateSchedule t.teams t.stadiums e
        = .ok (generateMatches t.teams t.stadiums e) := by
      unfold generateSchedule
      rw [if_neg (by omega)]
    refine ⟨hg, ?_⟩
    unfold handleGenerateSchedule
    rw [hg]

/-- Witness for C7: a one-team tournament (with a pre-existing match list and
venues) is rejected and left unchanged; a two-team tournament with an empty
venue list succeeds. -/
theorem c7_insufficient_teams_witness :
    (generateSchedule tOne.teams tOne.stadiums e0 = .error .insufficientTeams ∧
      handleGenerateSchedule tOne e0 = tOne) ∧
    (generateSchedule tTwo.teams tTwo.stadiums e0
        = .ok (generateMatches tTwo.teams tTwo.stadiums e0) ∧
      handleGenerateSchedule tTwo e0
        = { tTwo with
            «matches» := generateMatches tTwo.teams tTwo.stadiums e0,
            status := some .UPCOMING }) :=
  ⟨(c7_insufficient_teams tOne e0).1 (by decide),
   (c7_insufficient_teams tTwo e0).2 (by decide)⟩

/-- **C9 counterexample.** Two runs of schedule generation on the same teams
and venues but different ambient `Math.random` streams produce different
match lists: with every draw 0 the single match is placed at stadium `s1`,
with every draw 1/2 at stadium `s2`. (Match ids similarly embed `Date.now()`.)
So the generator is not a pure function of teams and venues alone. -/
theorem c9_schedule_not_deterministic :
    generateMatches teams2 stads2 e0 ≠ generateMatches teams2 stads2 eHalf ∧
    (generateMatches teams2 stads2 e0).map (fun m => m.venueId) = ["s1"] ∧
    (generateMatches teams2 stads2 eHalf).map (fun m => m.venueId) = ["s2"] := by
  have h1 : (generateMatches teams2 stads2 e0).map (fun m => m.venueId) = ["s1"] := by
    norm_num +decide [generateMatches, genRounds, genRound, rotateOnce, pickVenue, mkMatchId,
      byeTeam, defTeam, teams2, stads2, e0, teamA, teamB, jsFloor_eq_floor, List.range_succ]
  have h2 : (generateMatches teams2 stads2 eHalf).map (fun m => m.venueId) = ["s2"] := by
    norm_num +decide [generateMatches, genRounds, genRound, rotateOnce, pickVenue, mkMatchId,
      byeTeam, defTeam, teams2, stads2, eHalf, teamA, teamB, jsFloor_eq_floor, List.range_succ]
  refine ⟨?_, h1, h2⟩
  intro he
  rw [he, h2] at h1
  exact absurd h1 (by decide)

/-- **C9 (amended).** The standings computation is embedded as a pure
function of its snapshot, so it is deterministic by construction; the
schedule generator is deterministic only up to its ambient entropy: for a
fixed team and venue list, the pairings and round numbers — the projection
of each match to (round, team1Id, team2Id) — are identical across any two
runs, while the venue assignments and the match ids may differ (they consume
`Math.random` and `Date.now`). -/
theorem c9_determinism_amended (teams : List Team) (stadiums : List Stadium)
    (e1 e2 : Entropy) :
    (generateMatches teams stadiums e1).map matchProj
      = (generateMatches teams stadiums e2).map matchProj := by
  rcases Nat.even_or_odd teams.length with hev | hod
  · rw [generateMatches_proj_even teams stadiums e1 (Nat.even_iff.mp hev),
      generateMatches_proj_even teams stadiums e2 (Nat.even_iff.mp hev)]
  · rw [generateMatches_proj_odd teams stadiums e1 (Nat.odd_iff.mp hod),
      generateMatches_proj_odd teams stadiums e2 (Nat.odd_iff.mp hod)]

end LimOver
